import Mathlib

/-!
# procmap: bubble layout, rasteriser and refresh loop

A shallow embedding of `proc/process.go`, `ui/bubble.go` and `ui/model.go`.

Numbers: Go's `float64` is idealised as an arbitrary linearly ordered field `K`
with a floor function (exact arithmetic, no rounding, no NaN); every definition
is computable for a computable `K` such as `ℚ`, and the theorems hold in
particular for `ℝ`.  Go's `int` is `Int`; the one `int` that the program
increments without a bound, `maxBubbles`, wraps as a 64-bit `int` does (`wrapInt`).
Functions that come from outside the repository (`math.Sqrt`, `math.Cos`,
`math.Sin`, `fmt`, `lipgloss`, `sort.Slice`) are parameters of the embedding.
A Go run-time panic is the value `none`.
-/

namespace Procmap

/-! ## External numeric library -/

/-- The three functions of Go's `math` package that the layout code calls. -/
structure MathFns (K : Type) where
  /-- Go's `math.Sqrt`. -/
  Sqrt : K → K
  /-- Go's `math.Cos`. -/
  Cos : K → K
  /-- Go's `math.Sin`. -/
  Sin : K → K

/-! ## proc/process.go -/

/-- ProcessInfo holds information about a single process.  `Name` is kept as
the raw bytes of the Go string, because the label code slices and indexes it
bytewise; `MemPercent` (a `float32`) is widened exactly; `CreateTime` is a
Unix time in seconds. -/
structure ProcessInfo (K : Type) where
  PID : Int
  Name : List UInt8
  CPUPercent : K
  MemPercent : K
  Status : String
  CreateTime : Int
  NumThreads : Int
  Username : String

/-! ## ui/bubble.go -/

/-- Bubble represents a positioned bubble on the screen. -/
structure Bubble (K : Type) where
  X : K
  Y : K
  Radius : K
  Process : ProcessInfo K
  Value : K
  ColorHex : String

section Layout

variable {K : Type} [LinearOrderedField K] [FloorRing K]

/-- The constant `math.Pi` of Go's standard library (a decimal literal). -/
def Pi : K :=
  314159265358979323846264338327950288419716939937510582097494459 / 10 ^ 62

/-- The constant `math.MaxFloat64`, `2^1023 * (2 - 2^-52)`. -/
def MaxFloat64 : K := 2 ^ 1024 - 2 ^ 971

/-- getValue returns the metric value based on sort mode. -/
def getValue (p : ProcessInfo K) (sortMode : String) : K :=
  if sortMode = "cpu" then p.CPUPercent
  else if sortMode = "memory" then p.MemPercent
  else if sortMode = "threads" then (p.NumThreads : K)
  else p.CPUPercent

/-- calculateBubbleSize maps a metric value to a radius. -/
def calculateBubbleSize (M : MathFns K) (value maxValue minValue : K)
    (screenWidth screenHeight : Int) : K :=
  if maxValue = minValue then 3
  else
    let normalized := (value - minValue) / (maxValue - minValue)
    let maxRadius := min ((screenWidth : K) / 8) ((screenHeight : K) / 6)
    let minRadius : K := 2
    minRadius + M.Sqrt normalized * (maxRadius - minRadius)

/-- getColor returns a color based on the percentile of the value. -/
def getColor (value maxValue minValue : K) : String :=
  if maxValue = minValue then "12"
  else
    let normalized := (value - minValue) / (maxValue - minValue)
    if normalized > 3 / 4 then "9"
    else if normalized > 1 / 2 then "208"
    else if normalized > 1 / 4 then "11"
    else "10"

/-- One iteration of the min/max loop of `packBubbles` (lines 90-99): the
accumulator is `(maxValue, minValue)`. -/
def minMaxStep (sortMode : String) (acc : K × K) (p : ProcessInfo K) : K × K :=
  let val := getValue p sortMode
  (if val > acc.1 then val else acc.1, if val < acc.2 then val else acc.2)

/-- The min/max loop of `packBubbles`, started at `(0.0, math.MaxFloat64)`. -/
def minMax (topProcs : List (ProcessInfo K)) (sortMode : String) : K × K :=
  topProcs.foldl (minMaxStep sortMode) (0, MaxFloat64)

/-- The collision loop of `packBubbles` (lines 134-143) over the bubbles
`bubbles[0..i)` already placed. -/
def collides (M : MathFns K) (placed : List (Bubble K)) (x y currentRadius : K) : Bool :=
  placed.any fun bj =>
    let dx := x - bj.X
    let dy := y - bj.Y
    let minDist := currentRadius + bj.Radius + 1
    decide (M.Sqrt (dx * dx + dy * dy) < minDist)

/-- The screen-bounds test of `packBubbles` (lines 146-147). -/
def outOfBounds (x y currentRadius : K) (width height : Int) : Bool :=
  decide (x - currentRadius < 0) || decide (x + currentRadius ≥ (width : K)) ||
    decide (y - currentRadius < 3) || decide (y + currentRadius ≥ ((height - 2 : Int) : K))

/-- The inner loop of `packBubbles` (lines 129-157): candidate angles from
`angle` on, in steps of 0.3, while `angle < 2*math.Pi`; the first candidate
that neither collides nor leaves the screen is returned. -/
def tryAngles {K : Type} [LinearOrderedField K] [FloorRing K] (M : MathFns K)
    (placed : List (Bubble K)) (centerX centerY currentRadius : K)
    (width height : Int) (distance angle : K) : Option (K × K) :=
  if hlt : angle < 2 * Pi then
    let x := centerX + distance * M.Cos angle
    let y := centerY + distance * M.Sin angle
    if collides M placed x y currentRadius || outOfBounds x y currentRadius width height then
      tryAngles M placed centerX centerY currentRadius width height distance (angle + 3 / 10)
    else some (x, y)
  else none
termination_by (⌈(2 * Pi - angle) / (3 / 10 : K)⌉).toNat
decreasing_by
  have e : ∀ bound cur step : K, 0 < step →
      (bound - (cur + step)) / step = (bound - cur) / step - 1 := by
    intro bound cur step hs
    field_simp
    ring
  have hpos := Int.ceil_pos.mpr (div_pos (sub_pos.mpr hlt) (by norm_num : (0 : K) < 3 / 10))
  rw [e _ _ _ (by norm_num), Int.ceil_sub_one]
  omega

/-- The outer loop of `packBubbles` (lines 128-158): distances from `distance`
on, in steps of 2, while `distance < float64(width)*2` and nothing is placed. -/
def trySpiral {K : Type} [LinearOrderedField K] [FloorRing K] (M : MathFns K)
    (placed : List (Bubble K)) (centerX centerY currentRadius : K)
    (width height : Int) (distance : K) : Option (K × K) :=
  if hlt : distance < (width : K) * 2 then
    match tryAngles M placed centerX centerY currentRadius width height distance 0 with
    | some p => some p
    | none => trySpiral M placed centerX centerY currentRadius width height (distance + 2)
  else none
termination_by (⌈((width : K) * 2 - distance) / (2 : K)⌉).toNat
decreasing_by
  have e : ∀ bound cur step : K, 0 < step →
      (bound - (cur + step)) / step = (bound - cur) / step - 1 := by
    intro bound cur step hs
    field_simp
    ring
  have hpos := Int.ceil_pos.mpr (div_pos (sub_pos.mpr hlt) (by norm_num : (0 : K) < 2))
  rw [e _ _ _ (by norm_num), Int.ceil_sub_one]
  omega

/-- The placement loop of `packBubbles` (lines 123-165): `placed` is
`bubbles[0..i)`, the second list is `bubbles[i..]`, `radius0` is
`bubbles[0].Radius`.  A bubble that finds no position truncates the result. -/
def placeRemaining (M : MathFns K) (centerX centerY radius0 : K) (width height : Int) :
    List (Bubble K) → List (Bubble K) → List (Bubble K)
  | placed, [] => placed
  | placed, b :: rest =>
    match trySpiral M placed centerX centerY b.Radius width height (b.Radius + radius0) with
    | some (x, y) =>
      placeRemaining M centerX centerY radius0 width height
        (placed ++ [{ b with X := x, Y := y }]) rest
    | none => placed

/-- The two loops of `packBubbles` that compute the values with their maximum
and minimum (lines 86-99) and create the bubbles with sizes and colours, not yet
positioned (lines 101-110). -/
def sizedBubbles (M : MathFns K) (topProcs : List (ProcessInfo K)) (sortMode : String)
    (width height : Int) : List (Bubble K) :=
  let values := topProcs.map fun p => getValue p sortMode
  let maxValue := (minMax topProcs sortMode).1
  let minValue := (minMax topProcs sortMode).2
  List.zipWith (fun p v =>
    ({ X := 0, Y := 0, Radius := calculateBubbleSize M v maxValue minValue width height,
       Process := p, Value := v, ColorHex := getColor v maxValue minValue } : Bubble K))
    topProcs values

/-- packBubbles implements a simple circle packing algorithm.  The result is
`none` when the slice expression `processes[:count]` panics. -/
def packBubbles (M : MathFns K) (processes : List (ProcessInfo K)) (sortMode : String)
    (maxBubbles width height : Int) : Option (List (Bubble K)) :=
  if processes.length = 0 then some []
  else
    let count : Int :=
      if maxBubbles > (processes.length : Int) then (processes.length : Int) else maxBubbles
    if count < 0 then none
    else
      let topProcs := processes.take count.toNat
      let centerX := (width : K) / 2
      let centerY := (height : K) / 2
      match sizedBubbles M topProcs sortMode width height with
      | [] => some []
      | b0 :: rest =>
        some (placeRemaining M centerX centerY b0.Radius width height
          [{ b0 with X := centerX, Y := centerY }] rest)

end Layout

/-! ## Strings, runes and the terminal libraries -/

/-- The functions of `fmt`, `lipgloss` and `sort` that the UI code calls. -/
structure UiFns (K : Type) where
  /-- Go's `fmt.Sprintf("%.1f%%", v)`. -/
  sprintfPercent : K → String
  /-- Go's `lipgloss.NewStyle().Foreground(lipgloss.Color(color)).Render(text)`. -/
  renderColor : String → String → String
  /-- The header style of `View` (bold, colours, `Width(width)`), rendering a text. -/
  renderHeader : Int → String → String
  /-- The footer style of `View`, rendering a text. -/
  renderFooter : String → String
  /-- Go's `sort.Slice`, given the `less` function on elements. -/
  sortSlice : (ProcessInfo K → ProcessInfo K → Bool) → List (ProcessInfo K) →
    List (ProcessInfo K)

/-- The bytes of a string constant (its UTF-8 encoding). -/
def goBytes (s : String) : List UInt8 := s.data.flatMap String.utf8EncodeChar

/-- The rune `utf8.RuneError`, U+FFFD. -/
def runeError : Char := Char.ofNat 0xFFFD

/-- A UTF-8 continuation byte, `0x80..0xBF`. -/
def isContByte (b : UInt8) : Bool := 0x80 ≤ b.toNat && b.toNat ≤ 0xBF

/-- The rune that a `range` loop over a Go string reads at a byte `b0` followed
by `rest`, and the number of bytes of `rest` it consumes: a malformed, overlong,
surrogate or truncated sequence reads as `utf8.RuneError` and consumes only `b0`. -/
def decodeRune (b0 : UInt8) (rest : List UInt8) : Char × Nat :=
  if b0.toNat < 0x80 then (Char.ofNat b0.toNat, 0)
  else if 0xC0 ≤ b0.toNat ∧ b0.toNat < 0xE0 then
    match rest with
    | b1 :: _ =>
      let r := (b0.toNat % 0x20) * 0x40 + b1.toNat % 0x40
      if isContByte b1 ∧ 0x7F < r then (Char.ofNat r, 1) else (runeError, 0)
    | _ => (runeError, 0)
  else if 0xE0 ≤ b0.toNat ∧ b0.toNat < 0xF0 then
    match rest with
    | b1 :: b2 :: _ =>
      let r := (b0.toNat % 0x10) * 0x1000 + (b1.toNat % 0x40) * 0x40 + b2.toNat % 0x40
      if isContByte b1 ∧ isContByte b2 ∧ 0x7FF < r ∧ ¬ (0xD800 ≤ r ∧ r ≤ 0xDFFF) then
        (Char.ofNat r, 2)
      else (runeError, 0)
    | _ => (runeError, 0)
  else if 0xF0 ≤ b0.toNat ∧ b0.toNat < 0xF8 then
    match rest with
    | b1 :: b2 :: b3 :: _ =>
      let r := (b0.toNat % 0x08) * 0x40000 + (b1.toNat % 0x40) * 0x1000 +
        (b2.toNat % 0x40) * 0x40 + b3.toNat % 0x40
      if isContByte b1 ∧ isContByte b2 ∧ isContByte b3 ∧ 0xFFFF < r ∧ r ≤ 0x10FFFF then
        (Char.ofNat r, 3)
      else (runeError, 0)
    | _ => (runeError, 0)
  else (runeError, 0)

/-- The pairs `(i, ch)` of a loop `for i, ch := range s` over the Go string with
bytes `s`, whose first byte has index `k`: `i` is the byte index of the rune. -/
def rangeString : Nat → List UInt8 → List (Nat × Char)
  | _, [] => []
  | k, b0 :: rest =>
    (k, (decodeRune b0 rest).1) ::
      rangeString (k + 1 + (decodeRune b0 rest).2) (rest.drop (decodeRune b0 rest).2)
termination_by _ s => s.length
decreasing_by
  simp only [List.length_drop, List.length_cons]
  omega

/-- Go's conversion `int(x)` of a `float64`: truncation towards zero. -/
def truncToInt {K : Type} [LinearOrderedField K] [FloorRing K] (x : K) : Int :=
  if 0 ≤ x then ⌊x⌋ else ⌈x⌉

/-! ## ui/model.go: truncate -/

/-- The function `truncate` of model.go on the bytes of `s`; `none` when the slice
expression `s[:maxLen-3]` panics. -/
def truncate (s : List UInt8) (maxLen : Int) : Option (List UInt8) :=
  if (s.length : Int) ≤ maxLen then some s
  else if maxLen - 3 < 0 then none
  else some (s.take (maxLen - 3).toNat ++ goBytes "...")

/-! ## ui/bubble.go: the rasteriser -/

/-- The circle glyph U+25CB that `drawBubble` writes on an outline. -/
def circleGlyph : Char := Char.ofNat 0x25CB

/-- The assignment `grid[y][x] = v` on a slice of slices; `none` when an index
is out of range. -/
def setCell {α : Type} (grid : List (List α)) (y x : Int) (v : α) : Option (List (List α)) :=
  if 0 ≤ y ∧ y < (grid.length : Int) then
    match grid[y.toNat]? with
    | some row =>
      if 0 ≤ x ∧ x < (row.length : Int) then some (grid.set y.toNat (row.set x.toNat v))
      else none
    | none => none
  else none

/-- The read `grid[y][x]`; `none` when an index is out of range. -/
def getCell {α : Type} (grid : List (List α)) (y x : Nat) : Option α :=
  match grid[y]? with
  | some row => row[x]?
  | none => none

/-- The outline loop of `drawBubble` (lines 220-228), from `angle` on in steps
of 0.1 while `angle < 2*math.Pi`. -/
def drawOutline {K : Type} [LinearOrderedField K] [FloorRing K] (M : MathFns K)
    (b : Bubble K) (height width : Int) (angle : K)
    (canvas : List (List Char)) (colors : List (List String)) :
    Option (List (List Char) × List (List String)) :=
  if hlt : angle < 2 * Pi then
    let x := truncToInt (b.X + b.Radius * M.Cos angle)
    let y := truncToInt (b.Y + b.Radius * M.Sin angle)
    if y ≥ 0 ∧ y < height ∧ x ≥ 0 ∧ x < width then
      match setCell canvas y x circleGlyph, setCell colors y x b.ColorHex with
      | some canvas1, some colors1 =>
        drawOutline M b height width (angle + 1 / 10) canvas1 colors1
      | _, _ => none
    else drawOutline M b height width (angle + 1 / 10) canvas colors
  else some (canvas, colors)
termination_by (⌈(2 * Pi - angle) / (1 / 10 : K)⌉).toNat
decreasing_by
  all_goals
    have e : ∀ bound cur step : K, 0 < step →
        (bound - (cur + step)) / step = (bound - cur) / step - 1 := by
      intro bound cur step hs
      field_simp
      ring
    have hpos := Int.ceil_pos.mpr (div_pos (sub_pos.mpr hlt) (by norm_num : (0 : K) < 1 / 10))
    rw [e _ _ _ (by norm_num), Int.ceil_sub_one]
    omega

section Raster

variable {K : Type} [LinearOrderedField K] [FloorRing K]

/-- The metric suffix of a label (lines 231-239). -/
def metricSuffix (U : UiFns K) (b : Bubble K) (sortMode : String) : String :=
  if sortMode = "cpu" then U.sprintfPercent b.Value
  else if sortMode = "memory" then U.sprintfPercent b.Value
  else if sortMode = "threads" then toString (truncToInt b.Value)
  else ""

/-- One iteration of the label loop of `drawBubble` (lines 248-254). -/
def drawLabelCell (b : Bubble K) (labelX labelY width : Int)
    (st : List (List Char) × List (List String)) (ic : Nat × Char) :
    Option (List (List Char) × List (List String)) :=
  let x := labelX + (ic.1 : Int)
  if x ≥ 0 ∧ x < width then
    match setCell st.1 labelY x ic.2, setCell st.2 labelY x b.ColorHex with
    | some canvas1, some colors1 => some (canvas1, colors1)
    | _, _ => none
  else some st

/-- drawBubble draws a single bubble on the canvas; `none` when it panics. -/
def drawBubble (M : MathFns K) (U : UiFns K) (canvas : List (List Char))
    (colors : List (List String)) (b : Bubble K) (sortMode : String) :
    Option (List (List Char) × List (List String)) :=
  let height : Int := canvas.length
  match canvas with
  | [] => none
  | row0 :: _ =>
    let width : Int := row0.length
    match drawOutline M b height width 0 canvas colors with
    | none => none
    | some (canvas1, colors1) =>
      match truncate b.Process.Name 12 with
      | none => none
      | some name =>
        let label := name ++ goBytes " " ++ goBytes (metricSuffix U b sortMode)
        let labelX := truncToInt b.X - ((label.length / 2 : Nat) : Int)
        let labelY := truncToInt b.Y
        if labelY ≥ 0 ∧ labelY < height then
          (rangeString 0 label).foldlM (drawLabelCell b labelX labelY width) (canvas1, colors1)
        else some (canvas1, colors1)

/-- The text of one cell in the output of `renderBubbles` (lines 196-204). -/
def renderCell (U : UiFns K) (canvas : List (List Char)) (colors : List (List String))
    (y x : Nat) : Option String :=
  match getCell canvas y x, getCell colors y x with
  | some char, some color =>
    if color ≠ "" then some (U.renderColor color (String.singleton char))
    else some (String.singleton char)
  | _, _ => none

/-- The text of row `y` in the output of `renderBubbles` (lines 195-208), with
the newline that follows every row but the last. -/
def renderRow (U : UiFns K) (canvas : List (List Char)) (colors : List (List String))
    (width height : Int) (y : Nat) : Option String :=
  match (List.range width.toNat).mapM (renderCell U canvas colors y) with
  | some cells => some (String.join cells ++ (if (y : Int) < height - 1 then "\n" else ""))
  | none => none

/-- renderBubbles creates a 2D character array and draws all bubbles; `none`
when `make` or an index expression panics. -/
def renderBubbles (M : MathFns K) (U : UiFns K) (bubbles : List (Bubble K))
    (width height : Int) (sortMode : String) : Option String :=
  if height < 0 then none
  else if 0 < height ∧ width < 0 then none
  else
    let canvas := List.replicate height.toNat (List.replicate width.toNat ' ')
    let colors := List.replicate height.toNat (List.replicate width.toNat "")
    match bubbles.foldlM (fun st b => drawBubble M U st.1 st.2 b sortMode) (canvas, colors) with
    | none => none
    | some (canvas1, colors1) =>
      match (List.range height.toNat).mapM (renderRow U canvas1 colors1 width height) with
      | some rows => some (String.join rows)
      | none => none

end Raster

/-! ## ui/model.go: the refresh loop -/

/-- The state of the UI.  `err` is the message of the recorded error, `none`
for Go's `nil`. -/
structure model (K : Type) where
  processes : List (ProcessInfo K)
  cursor : Int
  height : Int
  width : Int
  err : Option String
  sortMode : String
  maxBubbles : Int

/-- The messages `Update` distinguishes; `other` is any other `tea.Msg`. -/
inductive Msg (K : Type) where
  | KeyMsg (key : String)
  | WindowSizeMsg (Width Height : Int)
  | tickMsg
  | processesMsg (procs : List (ProcessInfo K))
  | errMsg (err : Option String)
  | other

/-- The commands `Update` returns: `nil`, `tea.Quit`, and
`tea.Batch(tick(), fetchProcesses)`. -/
inductive Cmd where
  | nil
  | Quit
  | tickAndFetch
  deriving DecidableEq

/-- The largest value of Go's `int` on a 64-bit platform, `2^63 - 1`. -/
def maxInt : Int := 9223372036854775807

/-- The smallest value of Go's `int` on a 64-bit platform, `-2^63`. -/
def minInt : Int := -9223372036854775808

/-- The value that Go's `int` arithmetic keeps of the exact result `n`: the
64-bit two's complement wrap-around, `((n + 2^63) mod 2^64) - 2^63`. -/
def wrapInt (n : Int) : Int :=
  (n + 9223372036854775808) % 18446744073709551616 - 9223372036854775808

section Loop

variable {K : Type} [LinearOrderedField K] [FloorRing K]

/-- NewModel: the zero value of every field but `sortMode` and `maxBubbles`. -/
def NewModel : model K :=
  { processes := [], cursor := 0, height := 0, width := 0, err := none,
    sortMode := "cpu", maxBubbles := 20 }

/-- The method `sortProcesses`: descending by the metric of the sort mode. -/
def sortProcesses (U : UiFns K) (m : model K) : model K :=
  if m.sortMode = "cpu" then
    { m with processes := U.sortSlice (fun a b => decide (a.CPUPercent > b.CPUPercent)) m.processes }
  else if m.sortMode = "memory" then
    { m with processes := U.sortSlice (fun a b => decide (a.MemPercent > b.MemPercent)) m.processes }
  else if m.sortMode = "threads" then
    { m with processes := U.sortSlice (fun a b => decide (a.NumThreads > b.NumThreads)) m.processes }
  else m

/-- The key branch of `Update` (lines 74-92); `+=` and `-=` on the `int` field
`maxBubbles` wrap around. -/
def updateKey (U : UiFns K) (m : model K) (key : String) : model K × Cmd :=
  if key = "q" ∨ key = "ctrl+c" then (m, Cmd.Quit)
  else if key = "c" then (sortProcesses U { m with sortMode := "cpu" }, Cmd.nil)
  else if key = "m" then (sortProcesses U { m with sortMode := "memory" }, Cmd.nil)
  else if key = "t" then (sortProcesses U { m with sortMode := "threads" }, Cmd.nil)
  else if key = "+" ∨ key = "=" then
    ({ m with maxBubbles := wrapInt (m.maxBubbles + 10) }, Cmd.nil)
  else if key = "-" ∨ key = "_" then
    (if m.maxBubbles > 10 then { m with maxBubbles := wrapInt (m.maxBubbles - 10) } else m,
      Cmd.nil)
  else (m, Cmd.nil)

/-- The method `Update`. -/
def Update (U : UiFns K) (m : model K) (msg : Msg K) : model K × Cmd :=
  match msg with
  | Msg.KeyMsg key => updateKey U m key
  | Msg.WindowSizeMsg w h => ({ m with height := h, width := w }, Cmd.nil)
  | Msg.tickMsg => (m, Cmd.tickAndFetch)
  | Msg.processesMsg procs =>
    let m1 := sortProcesses U { m with processes := procs }
    let m2 := if m1.cursor ≥ (m1.processes.length : Int) then
      { m1 with cursor := (m1.processes.length : Int) - 1 } else m1
    let m3 := if m2.cursor < 0 then { m2 with cursor := 0 } else m2
    (m3, Cmd.nil)
  | Msg.errMsg e => ({ m with err := e }, Cmd.nil)
  | Msg.other => (m, Cmd.nil)

/-- The method `View`; `none` when `packBubbles` or `renderBubbles` panics. -/
def View (M : MathFns K) (U : UiFns K) (m : model K) : Option String :=
  match m.err with
  | some e => some ("Error: " ++ e ++ "\n\nPress q to quit.")
  | none =>
    let modeLabel :=
      if m.sortMode = "memory" then "Memory%"
      else if m.sortMode = "threads" then "Threads"
      else "CPU%"
    let header := " Process Bubbles - Sorted by " ++ modeLabel ++ " | Showing: " ++
      toString m.maxBubbles
    let s := "" ++ U.renderHeader m.width header ++ "\n"
    match packBubbles M m.processes m.sortMode m.maxBubbles m.width (m.height - 3) with
    | none => none
    | some bubbles =>
      match renderBubbles M U bubbles m.width (m.height - 3) m.sortMode with
      | none => none
      | some bubbleView =>
        let s1 := s ++ bubbleView ++ "\n"
        let footer := "Total: " ++ toString m.processes.length ++
          " | [c]PU [m]emory [t]hreads | +/- adjust count | [q]uit"
        some (s1 ++ U.renderFooter footer)

end Loop

/-! ## A plain instance of the terminal libraries

Used only to state concrete runs: no styling (what `lipgloss` renders on a
terminal without colours), a stable sort, and exact decimal formatting. -/

section Plain

variable {K : Type} [LinearOrderedField K] [FloorRing K]

/-- Rounding to the nearest integer, ties to even. -/
def roundHalfEven (x : K) : Int :=
  let f := ⌊x⌋
  let r := x - (f : K)
  if r < 1 / 2 then f else if 1 / 2 < r then f + 1 else if f % 2 = 0 then f else f + 1

/-- The text of `fmt.Sprintf("%.1f%%", v)` for an exact value `v`. -/
def formatPercent (v : K) : String :=
  let t := roundHalfEven (10 * |v|)
  (if v < 0 then "-" else "") ++ toString (t / 10) ++ "." ++ toString (t % 10) ++ "%"

/-- The plain instance of the terminal libraries. -/
def plainUi : UiFns K :=
  { sprintfPercent := formatPercent
    renderColor := fun _ text => text
    renderHeader := fun _ text => text
    renderFooter := fun text => text
    sortSlice := fun less l => l.mergeSort (fun a b => !less b a) }

end Plain

/-! ## Specification predicates -/

section PackSpec

variable {K : Type} [LinearOrderedField K] [FloorRing K]

/-- The fields of a bubble that the placement loop never changes. -/
def Bubble.sized (b : Bubble K) : K × ProcessInfo K × K × String :=
  (b.Radius, b.Process, b.Value, b.ColorHex)

/-- Bubble `b`, placed after bubble `a`, passed the collision test against `a`:
the computed centre distance is at least the sum of the radii plus one. -/
def apart (M : MathFns K) (a b : Bubble K) : Prop :=
  b.Radius + a.Radius + 1 ≤
    M.Sqrt ((b.X - a.X) * (b.X - a.X) + (b.Y - a.Y) * (b.Y - a.Y))

/-- The canvas inset: the whole circle lies within the columns `[0, width)` and
leaves three rows free at the top and two at the bottom. -/
def inBounds (b : Bubble K) (width height : Int) : Prop :=
  0 ≤ b.X - b.Radius ∧ b.X + b.Radius < (width : K) ∧ 3 ≤ b.Y - b.Radius ∧
    b.Y + b.Radius < ((height - 2 : Int) : K)

/-- A grid of `h` rows with `w` cells each. -/
def rect {α : Type} (g : List (List α)) (h w : Nat) : Prop :=
  g.length = h ∧ ∀ row ∈ g, row.length = w

/-- A process `init` with the given CPU percentage. -/
def sampleProc (cpu : K) : ProcessInfo K :=
  { PID := 1, Name := goBytes "init", CPUPercent := cpu, MemPercent := 1, Status := "S",
    CreateTime := 0, NumThreads := 1, Username := "root" }

/-- Three processes with CPU values 50, 50 and 10, already in rank order (the
scenario of the specification). -/
def scenarioProcs : List (ProcessInfo K) :=
  [{ PID := 1, Name := goBytes "init", CPUPercent := 50, MemPercent := 1, Status := "S",
     CreateTime := 0, NumThreads := 1, Username := "root" },
   { PID := 2, Name := goBytes "sshd", CPUPercent := 50, MemPercent := 2, Status := "S",
     CreateTime := 0, NumThreads := 3, Username := "root" },
   { PID := 3, Name := goBytes "bash", CPUPercent := 10, MemPercent := 3, Status := "R",
     CreateTime := 0, NumThreads := 2, Username := "user" }]

/-- A process sample as `GetProcesses` produces it: the CPU and memory
percentages are non-negative finite `float64` values (a share of CPU time, a
share of memory) and the thread count is a non-negative `int32`. -/
def validSample (p : ProcessInfo K) : Prop :=
  0 ≤ p.CPUPercent ∧ p.CPUPercent ≤ MaxFloat64 ∧ 0 ≤ p.MemPercent ∧ p.MemPercent ≤ MaxFloat64 ∧
    0 ≤ p.NumThreads ∧ p.NumThreads ≤ 2147483647

end PackSpec

section LoopSpec

variable {K : Type} [LinearOrderedField K] [FloorRing K]

/-- The state reached from `NewModel()` after `Update` has handled the messages
`msgs` in order. -/
def runUpdates (U : UiFns K) (msgs : List (Msg K)) : model K :=
  msgs.foldl (fun m msg => (Update U m msg).1) NewModel

/-- The batch of the most recent `processesMsg` among `msgs`, empty when there
is none. -/
def lastBatch (msgs : List (Msg K)) : List (ProcessInfo K) :=
  msgs.foldl (fun last msg =>
    match msg with
    | Msg.processesMsg procs => procs
    | _ => last) []

/-- The message is a key `+` or `=`. -/
def isPlusKey (msg : Msg K) : Bool :=
  match msg with
  | Msg.KeyMsg key => decide (key = "+" ∨ key = "=")
  | _ => false

/-- The number of keys `+` and `=` among `msgs`. -/
def plusKeys (msgs : List (Msg K)) : Nat := msgs.countP isPlusKey

/-- The contract of Go's `sort.Slice`: the result is a permutation of the
slice, and for a `less` that is a strict weak ordering no element of the
result is less than an earlier one. -/
def SortContract (sortSlice : (ProcessInfo K → ProcessInfo K → Bool) →
    List (ProcessInfo K) → List (ProcessInfo K)) : Prop :=
  ∀ (less : ProcessInfo K → ProcessInfo K → Bool) (l : List (ProcessInfo K)),
    (sortSlice less l).Perm l ∧
    ((∀ a, less a a = false) → (∀ a b c, less a b = true → less b c = true → less a c = true) →
      (∀ a b c, less a b = false → less b c = false → less a c = false) →
      (sortSlice less l).Pairwise fun a b => less b a = false)

/-- The batch is ordered descending by the metric of `sortMode`. -/
def sortedDescending (procs : List (ProcessInfo K)) (sortMode : String) : Prop :=
  procs.Pairwise fun a b => getValue b sortMode ≤ getValue a sortMode

end LoopSpec

section RasterSpec

variable {K : Type} [LinearOrderedField K] [FloorRing K]

/-- The text that `renderBubbles` emits for a cell: the glyph, wrapped in its
colour styling when the cell has a colour. -/
def cellText (U : UiFns K) (char : Char) (color : String) : String :=
  if color ≠ "" then U.renderColor color (String.singleton char) else String.singleton char

/-- Rows separated by newlines, with no newline after the last row. -/
def joinLines : List String → String
  | [] => ""
  | [row] => row
  | row :: next :: rest => row ++ "\n" ++ joinLines (next :: rest)

/-- The first bubble of the scenario layout: `init` with CPU 50 at the centre of
a 40 by 20 canvas, radius 10/3, red. -/
def sampleBubble : Bubble K :=
  { X := 20, Y := 10, Radius := 10 / 3, Process := sampleProc 50, Value := 50,
    ColorHex := "9" }

end RasterSpec

section LabelSpec

variable {K : Type} [LinearOrderedField K] [FloorRing K]

/-- A bubble whose process name `éa` holds a two-byte character: at `(20, 5)`
with radius 3, value 5 and the red bucket. -/
def accentBubble : Bubble K :=
  { X := 20, Y := 5, Radius := 3,
    Process := { PID := 7, Name := goBytes "éa", CPUPercent := 5, MemPercent := 1,
                 Status := "S", CreateTime := 0, NumThreads := 5, Username := "root" },
    Value := 5, ColorHex := "9" }

end LabelSpec

/-! ## Theorems -/

section LoopTheorems

variable {K : Type} [LinearOrderedField K] [FloorRing K]

theorem sortProcesses_err (U : UiFns K) (m : model K) : (sortProcesses U m).err = m.err := by
  unfold sortProcesses
  split_ifs <;> rfl

theorem Update_processesMsg_err (U : UiFns K) (m : model K) (procs : List (ProcessInfo K)) :
    (Update U m (Msg.processesMsg procs)).1.err = m.err := by
  simp only [Update]
  split_ifs <;> simp [sortProcesses_err]

theorem Update_errMsg_err (U : UiFns K) (m : model K) (e : Option String) :
    (Update U m (Msg.errMsg e)).1.err = e := rfl

theorem View_of_err (M : MathFns K) (U : UiFns K) (m : model K) (e : String)
    (h : m.err = some e) : View M U m = some ("Error: " ++ e ++ "\n\nPress q to quit.") := by
  simp [View, h]

/-- C1 (as amended): a recorded error is not cleared by a successful fetch.  For
every model state, after `Update` receives an `errMsg` carrying an error `e` and
then a `processesMsg`, the recorded error is still `e` and `View` still returns
the error screen `Error: e`, blank line, `Press q to quit.`. -/
theorem C1_error_survives_successful_fetch (M : MathFns K) (U : UiFns K) (m : model K)
    (e : String) (procs : List (ProcessInfo K)) :
    (Update U (Update U m (Msg.errMsg (some e))).1 (Msg.processesMsg procs)).1.err = some e ∧
    View M U (Update U (Update U m (Msg.errMsg (some e))).1 (Msg.processesMsg procs)).1 =
      some ("Error: " ++ e ++ "\n\nPress q to quit.") := by
  have h : (Update U (Update U m (Msg.errMsg (some e))).1 (Msg.processesMsg procs)).1.err =
      some e := by
    rw [Update_processesMsg_err, Update_errMsg_err]
  exact ⟨h, View_of_err M U _ e h⟩

end LoopTheorems

/-- C1 (counterexample): from the initial model, a failed fetch with error `boom`
followed by a successful fetch of one process still shows the error screen, not
the header, bubbles and footer. -/
theorem C1_counterexample :
    View (⟨Real.sqrt, Real.cos, Real.sin⟩ : MathFns ℝ) plainUi
      (Update plainUi (Update plainUi (NewModel : model ℝ) (Msg.errMsg (some "boom"))).1
        (Msg.processesMsg [⟨1, goBytes "init", 5, 1, "S", 0, 1, "root"⟩])).1 =
      some "Error: boom\n\nPress q to quit." := by
  rw [View_of_err _ _ _ "boom" (by rw [Update_processesMsg_err, Update_errMsg_err])]
  rfl

section SizingTheorems

variable {K : Type} [LinearOrderedField K] [FloorRing K]

theorem normalized_affine (a b value maxValue minValue : K) (ha : a ≠ 0) :
    (a * value + b - (a * minValue + b)) / (a * maxValue + b - (a * minValue + b)) =
      (value - minValue) / (maxValue - minValue) := by
  rw [show a * value + b - (a * minValue + b) = a * (value - minValue) by ring,
    show a * maxValue + b - (a * minValue + b) = a * (maxValue - minValue) by ring,
    mul_div_mul_left _ _ ha]

theorem affine_eq_iff (a b maxValue minValue : K) (ha : a ≠ 0) :
    a * maxValue + b = a * minValue + b ↔ maxValue = minValue := by
  constructor
  · intro h
    exact mul_left_cancel₀ ha (add_right_cancel h)
  · intro h
    rw [h]

/-- C7 (as amended): on a canvas with `width ≥ 16` and `height ≥ 12`, so that
`maxRadius = min(width/8, height/6) ≥ 2`, and for a square root that maps
`[0,1]` into `[0,1]`, every value with `minValue ≤ value ≤ maxValue` and
`minValue < maxValue` gets a radius `r` with `2 ≤ r ≤ maxRadius`. -/
theorem C7_radius_range (M : MathFns K) (value minValue maxValue : K) (width height : Int)
    (hsqrt : ∀ t : K, 0 ≤ t → t ≤ 1 → 0 ≤ M.Sqrt t ∧ M.Sqrt t ≤ 1)
    (hlo : minValue ≤ value) (hhi : value ≤ maxValue) (hlt : minValue < maxValue)
    (hw : 16 ≤ width) (hh : 12 ≤ height) :
    2 ≤ calculateBubbleSize M value maxValue minValue width height ∧
      calculateBubbleSize M value maxValue minValue width height ≤
        min ((width : K) / 8) ((height : K) / 6) := by
  have hne : maxValue ≠ minValue := ne_of_gt hlt
  have hd : 0 < maxValue - minValue := sub_pos.mpr hlt
  have hn0 : 0 ≤ (value - minValue) / (maxValue - minValue) :=
    div_nonneg (sub_nonneg.mpr hlo) hd.le
  have hn1 : (value - minValue) / (maxValue - minValue) ≤ 1 := by
    rw [div_le_one hd]
    linarith
  obtain ⟨hs0, hs1⟩ := hsqrt _ hn0 hn1
  have hwK : (16 : K) ≤ (width : K) := by exact_mod_cast hw
  have hhK : (12 : K) ≤ (height : K) := by exact_mod_cast hh
  have hR : (2 : K) ≤ min ((width : K) / 8) ((height : K) / 6) := by
    apply le_min
    · rw [le_div_iff₀ (by norm_num)]
      linarith
    · rw [le_div_iff₀ (by norm_num)]
      linarith
  simp only [calculateBubbleSize, if_neg hne]
  constructor
  · nlinarith
  · nlinarith

/-- C8: `getColor` returns cyan `12` when `maxValue = minValue`; otherwise, with
`n = (value - minValue)/(maxValue - minValue)`, it returns red `9` iff `n > 0.75`,
orange `208` iff `0.5 < n ≤ 0.75`, yellow `11` iff `0.25 < n ≤ 0.5` and green `10`
iff `n ≤ 0.25`; the result is always one of these five buckets. -/
theorem C8_getColor_buckets (value maxValue minValue : K) :
    (maxValue = minValue → getColor value maxValue minValue = "12") ∧
    (maxValue ≠ minValue →
      (getColor value maxValue minValue = "9" ↔
        3 / 4 < (value - minValue) / (maxValue - minValue)) ∧
      (getColor value maxValue minValue = "208" ↔
        1 / 2 < (value - minValue) / (maxValue - minValue) ∧
          (value - minValue) / (maxValue - minValue) ≤ 3 / 4) ∧
      (getColor value maxValue minValue = "11" ↔
        1 / 4 < (value - minValue) / (maxValue - minValue) ∧
          (value - minValue) / (maxValue - minValue) ≤ 1 / 2) ∧
      (getColor value maxValue minValue = "10" ↔
        (value - minValue) / (maxValue - minValue) ≤ 1 / 4)) ∧
    getColor value maxValue minValue ∈ ["12", "9", "208", "11", "10"] := by
  refine ⟨fun h => by simp [getColor, h], fun h => ?_, ?_⟩
  · simp only [getColor, if_neg h]
    split_ifs with h1 h2 h3 <;> refine ⟨?_, ?_, ?_, ?_⟩ <;>
      simp only [String.reduceEq, false_iff, true_iff, not_and, not_le, not_lt] <;>
      first
        | linarith
        | (intro _; linarith)
        | (constructor <;> linarith)
  · simp only [getColor]
    split_ifs <;> simp

/-- C9: positive affine invariance.  For `a > 0` and every `b`, rescaling the
value, the maximum and the minimum by `t ↦ a*t + b` changes neither the radius
computed by `calculateBubbleSize` nor the bucket computed by `getColor`. -/
theorem C9_affine_invariance (M : MathFns K) (a b value maxValue minValue : K)
    (width height : Int) (ha : 0 < a) :
    calculateBubbleSize M (a * value + b) (a * maxValue + b) (a * minValue + b) width height =
        calculateBubbleSize M value maxValue minValue width height ∧
      getColor (a * value + b) (a * maxValue + b) (a * minValue + b) =
        getColor value maxValue minValue := by
  have hne : a ≠ 0 := ne_of_gt ha
  simp only [calculateBubbleSize, getColor, normalized_affine a b value maxValue minValue hne,
    affine_eq_iff a b maxValue minValue hne]
  exact ⟨trivial, trivial⟩

end SizingTheorems

/-- C7 (witness): the hypotheses of `C7_radius_range` hold for the real square
root, the value 5 in `[0, 10]` and an 80 by 24 canvas. -/
theorem C7_radius_range_witness :
    (0 : ℝ) ≤ 5 ∧ (5 : ℝ) ≤ 10 ∧ (0 : ℝ) < 10 ∧ (16 : Int) ≤ 80 ∧ (12 : Int) ≤ 24 ∧
    (2 ≤ calculateBubbleSize (⟨Real.sqrt, Real.cos, Real.sin⟩ : MathFns ℝ) 5 10 0 80 24 ∧
      calculateBubbleSize (⟨Real.sqrt, Real.cos, Real.sin⟩ : MathFns ℝ) 5 10 0 80 24 ≤
        min (((80 : Int) : ℝ) / 8) (((24 : Int) : ℝ) / 6)) :=
  ⟨by norm_num, by norm_num, by norm_num, by decide, by decide,
    C7_radius_range (⟨Real.sqrt, Real.cos, Real.sin⟩ : MathFns ℝ) 5 0 10 80 24
      (fun t _ h1 => ⟨Real.sqrt_nonneg t, Real.sqrt_le_one.mpr h1⟩)
      (by norm_num) (by norm_num) (by norm_num) (by decide) (by decide)⟩

/-- C7 (counterexample): on an 8 by 6 canvas `maxRadius` is 1, and the value 1
with `minValue = 0` and `maxValue = 1` gets the radius 1, below 2. -/
theorem C7_counterexample :
    (0 : ℝ) ≤ 1 ∧ (1 : ℝ) ≤ 1 ∧ (0 : ℝ) < 1 ∧
    calculateBubbleSize (⟨Real.sqrt, Real.cos, Real.sin⟩ : MathFns ℝ) 1 1 0 8 6 = 1 ∧
    ¬ (2 ≤ calculateBubbleSize (⟨Real.sqrt, Real.cos, Real.sin⟩ : MathFns ℝ) 1 1 0 8 6) := by
  have h : calculateBubbleSize (⟨Real.sqrt, Real.cos, Real.sin⟩ : MathFns ℝ) 1 1 0 8 6 = 1 := by
    simp only [calculateBubbleSize]
    norm_num
  refine ⟨by norm_num, by norm_num, by norm_num, h, ?_⟩
  rw [h]
  norm_num

/-- C9 (witness): the rescaling `t ↦ 2*t + 1` at value 5, maximum 10, minimum 0
on an 80 by 24 canvas, with the real square root. -/
theorem C9_affine_invariance_witness :
    (0 : ℝ) < 2 ∧
    (calculateBubbleSize (⟨Real.sqrt, Real.cos, Real.sin⟩ : MathFns ℝ)
        (2 * 5 + 1) (2 * 10 + 1) (2 * 0 + 1) 80 24 =
      calculateBubbleSize (⟨Real.sqrt, Real.cos, Real.sin⟩ : MathFns ℝ) 5 10 0 80 24 ∧
    getColor ((2 : ℝ) * 5 + 1) (2 * 10 + 1) (2 * 0 + 1) = getColor (5 : ℝ) 10 0) :=
  ⟨by norm_num, C9_affine_invariance _ 2 1 5 10 0 80 24 (by norm_num)⟩

section PackTheorems

variable {K : Type} [LinearOrderedField K] [FloorRing K]

theorem collides_eq_false_iff (M : MathFns K) (placed : List (Bubble K)) (x y r : K) :
    collides M placed x y r = false ↔
      ∀ bj ∈ placed, r + bj.Radius + 1 ≤
        M.Sqrt ((x - bj.X) * (x - bj.X) + (y - bj.Y) * (y - bj.Y)) := by
  simp [collides, List.any_eq_false]

theorem outOfBounds_eq_false_iff (x y r : K) (width height : Int) :
    outOfBounds x y r width height = false ↔
      0 ≤ x - r ∧ x + r < (width : K) ∧ 3 ≤ y - r ∧ y + r < ((height - 2 : Int) : K) := by
  unfold outOfBounds
  simp only [Bool.or_eq_false_iff, decide_eq_false_iff_not, not_lt, not_le, ge_iff_le,
    and_assoc]

theorem tryAngles_some (M : MathFns K) (placed : List (Bubble K)) (cX cY r : K)
    (width height : Int) (d angle : K) (p : K × K)
    (h : tryAngles M placed cX cY r width height d angle = some p) :
    collides M placed p.1 p.2 r = false ∧ outOfBounds p.1 p.2 r width height = false := by
  induction angle using tryAngles.induct M placed cX cY r width height d with
  | case1 a hlt x y hc ih =>
    rw [tryAngles, dif_pos hlt] at h
    simp only [hc, if_true] at h
    exact ih h
  | case2 a hlt x y hc =>
    rw [tryAngles, dif_pos hlt] at h
    simp only [hc, if_false] at h
    cases h
    simpa using hc
  | case3 a hlt =>
    rw [tryAngles, dif_neg hlt] at h
    cases h

theorem trySpiral_some (M : MathFns K) (placed : List (Bubble K)) (cX cY r : K)
    (width height : Int) (d : K) (p : K × K)
    (h : trySpiral M placed cX cY r width height d = some p) :
    collides M placed p.1 p.2 r = false ∧ outOfBounds p.1 p.2 r width height = false := by
  induction d using trySpiral.induct M placed cX cY r width height with
  | case1 a hlt q hq =>
    rw [trySpiral, dif_pos hlt] at h
    simp only [hq] at h
    rw [← Option.some.inj h]
    exact tryAngles_some M placed cX cY r width height a 0 q hq
  | case2 a hlt hq ih =>
    rw [trySpiral, dif_pos hlt] at h
    simp only [hq] at h
    exact ih h
  | case3 a hlt =>
    rw [trySpiral, dif_neg hlt] at h
    cases h


theorem placeRemaining_spec (M : MathFns K) (cX cY r0 : K) (width height : Int)
    (pending placed : List (Bubble K)) :
    ∃ added : List (Bubble K),
      placeRemaining M cX cY r0 width height placed pending = placed ++ added ∧
      added.map Bubble.sized <+: pending.map Bubble.sized ∧
      (∀ b ∈ added, inBounds b width height) ∧
      (placed.Pairwise (apart M) → (placed ++ added).Pairwise (apart M)) := by
  induction pending generalizing placed with
  | nil => exact ⟨[], by simp [placeRemaining], by simp, by simp, by simp⟩
  | cons b rest ih =>
    rw [placeRemaining]
    cases hsp : trySpiral M placed cX cY b.Radius width height (b.Radius + r0) with
    | none => exact ⟨[], by simp, by simp, by simp, by simp⟩
    | some p =>
      obtain ⟨x, y⟩ := p
      obtain ⟨hcol, hoob⟩ := trySpiral_some M placed cX cY b.Radius width height _ _ hsp
      obtain ⟨added, heq, hpre, hin, hpw⟩ := ih (placed ++ [{ b with X := x, Y := y }])
      refine ⟨{ b with X := x, Y := y } :: added, ?_, ?_, ?_, ?_⟩
      · simp only [hsp]
        rw [heq]
        simp
      · simp only [List.map_cons]
        exact List.prefix_cons_inj _ |>.mpr hpre
      · intro c hc
        rcases List.mem_cons.mp hc with rfl | hc
        · exact (outOfBounds_eq_false_iff _ _ _ _ _).mp hoob
        · exact hin c hc
      · intro hp
        have := hpw (by
          rw [List.pairwise_append]
          refine ⟨hp, List.pairwise_singleton _ _, ?_⟩
          intro a ha c hc
          rw [List.mem_singleton] at hc
          subst hc
          exact (collides_eq_false_iff M placed x y b.Radius).mp hcol a ha)
        simpa using this


theorem sizedBubbles_eq_map (M : MathFns K) (topProcs : List (ProcessInfo K)) (sortMode : String)
    (width height : Int) :
    sizedBubbles M topProcs sortMode width height =
      topProcs.map fun p =>
        ({ X := 0, Y := 0,
           Radius := calculateBubbleSize M (getValue p sortMode) (minMax topProcs sortMode).1
             (minMax topProcs sortMode).2 width height,
           Process := p, Value := getValue p sortMode,
           ColorHex := getColor (getValue p sortMode) (minMax topProcs sortMode).1
             (minMax topProcs sortMode).2 } : Bubble K) := by
  simp only [sizedBubbles, List.zipWith_map_right, List.zipWith_same]

theorem take_count_eq (processes : List (ProcessInfo K)) (maxBubbles : Int) :
    processes.take
        (if maxBubbles > (processes.length : Int) then (processes.length : Int)
          else maxBubbles).toNat =
      processes.take maxBubbles.toNat := by
  split_ifs with h
  · rw [Int.toNat_ofNat, List.take_of_length_le (le_refl _), List.take_of_length_le]
    omega
  · rfl

theorem packBubbles_spec (M : MathFns K) (processes : List (ProcessInfo K)) (sortMode : String)
    (maxBubbles width height : Int) (hmax : 0 ≤ maxBubbles) :
    ∃ out, packBubbles M processes sortMode maxBubbles width height = some out ∧
      out.map Bubble.sized <+:
        (sizedBubbles M (processes.take maxBubbles.toNat) sortMode width height).map
          Bubble.sized ∧
      out.Pairwise (apart M) ∧ ∀ b ∈ out.tail, inBounds b width height := by
  unfold packBubbles
  by_cases h0 : processes.length = 0
  · exact ⟨[], by simp [h0], by simp, by simp, by simp⟩
  · have hc : ¬ (if maxBubbles > (processes.length : Int) then (processes.length : Int)
        else maxBubbles) < 0 := by
      split_ifs <;> omega
    simp only [if_neg h0, if_neg hc, take_count_eq]
    cases hb : sizedBubbles M (processes.take maxBubbles.toNat) sortMode width height with
    | nil => exact ⟨[], rfl, by simp, by simp, by simp⟩
    | cons b0 rest =>
      obtain ⟨added, heq, hpre, hin, hpw⟩ :=
        placeRemaining_spec M ((width : K) / 2) ((height : K) / 2) b0.Radius width height rest
          [{ b0 with X := (width : K) / 2, Y := (height : K) / 2 }]
      refine ⟨_, rfl, ?_, ?_, ?_⟩
      · rw [heq]
        simp only [List.singleton_append, List.map_cons]
        exact (List.prefix_cons_inj _).mpr hpre
      · rw [heq]
        exact hpw (List.pairwise_singleton _ _)
      · rw [heq]
        simpa using hin

end PackTheorems
section PackClaims

variable {K : Type} [LinearOrderedField K] [FloorRing K]

theorem apart_symm_form (M : MathFns K) (a b : Bubble K) (h : apart M a b) :
    a.Radius + b.Radius + 1 ≤
      M.Sqrt ((a.X - b.X) * (a.X - b.X) + (a.Y - b.Y) * (a.Y - b.Y)) := by
  unfold apart at h
  have e : (a.X - b.X) * (a.X - b.X) + (a.Y - b.Y) * (a.Y - b.Y) =
      (b.X - a.X) * (b.X - a.X) + (b.Y - a.Y) * (b.Y - a.Y) := by ring
  rw [e]
  linarith

/-- C2: for `maxBubbles ≥ 0`, `packBubbles` returns a list in which every two
distinct bubbles `i ≠ j` have a computed centre distance of at least
`radius_i + radius_j + 1`, hence at least `radius_i + radius_j`: no two output
circles overlap. -/
theorem C2_no_overlap (M : MathFns K) (processes : List (ProcessInfo K)) (sortMode : String)
    (maxBubbles width height : Int) (hmax : 0 ≤ maxBubbles) :
    ∃ out, packBubbles M processes sortMode maxBubbles width height = some out ∧
      ∀ (i j : Nat) (hi : i < out.length) (hj : j < out.length), i ≠ j →
        out[i].Radius + out[j].Radius + 1 ≤
            M.Sqrt ((out[i].X - out[j].X) * (out[i].X - out[j].X) +
              (out[i].Y - out[j].Y) * (out[i].Y - out[j].Y)) ∧
          out[i].Radius + out[j].Radius ≤
            M.Sqrt ((out[i].X - out[j].X) * (out[i].X - out[j].X) +
              (out[i].Y - out[j].Y) * (out[i].Y - out[j].Y)) := by
  obtain ⟨out, hout, -, hpw, -⟩ :=
    packBubbles_spec M processes sortMode maxBubbles width height hmax
  refine ⟨out, hout, ?_⟩
  intro i j hi hj hij
  have key : out[i].Radius + out[j].Radius + 1 ≤
      M.Sqrt ((out[i].X - out[j].X) * (out[i].X - out[j].X) +
        (out[i].Y - out[j].Y) * (out[i].Y - out[j].Y)) := by
    rw [List.pairwise_iff_getElem] at hpw
    rcases Nat.lt_or_gt_of_ne hij with hlt | hgt
    · exact apart_symm_form M _ _ (hpw i j hi hj hlt)
    · have := hpw j i hj hi hgt
      unfold apart at this
      exact this
  exact ⟨key, by linarith⟩

/-- Every bubble of the output of `packBubbles` other than the first satisfies
the canvas inset. -/
theorem packBubbles_tail_inBounds (M : MathFns K) (processes : List (ProcessInfo K))
    (sortMode : String) (maxBubbles width height : Int) (out : List (Bubble K))
    (hout : packBubbles M processes sortMode maxBubbles width height = some out) :
    ∀ b ∈ out.tail, 0 ≤ b.X - b.Radius ∧ b.X + b.Radius < (width : K) ∧ 3 ≤ b.Y - b.Radius ∧
      b.Y + b.Radius < ((height - 2 : Int) : K) := by
  by_cases hmax : 0 ≤ maxBubbles
  · obtain ⟨out1, hout1, -, -, hin⟩ :=
      packBubbles_spec M processes sortMode maxBubbles width height hmax
    rw [hout] at hout1
    cases hout1
    exact hin
  · unfold packBubbles at hout
    by_cases h0 : processes.length = 0
    · simp only [if_pos h0] at hout
      cases hout
      simp
    · have hc : (if maxBubbles > (processes.length : Int) then (processes.length : Int)
          else maxBubbles) < 0 := by
        split_ifs <;> omega
      simp only [if_neg h0, if_pos hc] at hout
      cases hout

/-- C4: for `maxBubbles ≥ 0`, `packBubbles` returns at most
`min(maxBubbles, len(processes))` bubbles, and the bubble at every index `k` of
the output carries `processes[k]` and the value `getValue(processes[k], sortMode)`:
the output is a rank-order prefix of the input. -/
theorem C4_rank_order_prefix (M : MathFns K) (processes : List (ProcessInfo K))
    (sortMode : String) (maxBubbles width height : Int) (hmax : 0 ≤ maxBubbles) :
    ∃ out, packBubbles M processes sortMode maxBubbles width height = some out ∧
      (out.length : Int) ≤ min maxBubbles (processes.length : Int) ∧
      ∀ (k : Nat) (hk : k < out.length), ∃ hp : k < processes.length,
        out[k].Process = processes[k] ∧ out[k].Value = getValue processes[k] sortMode := by
  obtain ⟨out, hout, hpre, -, -⟩ :=
    packBubbles_spec M processes sortMode maxBubbles width height hmax
  refine ⟨out, hout, ?_, ?_⟩
  · have := hpre.length_le
    simp only [List.length_map, sizedBubbles_eq_map, List.length_take] at this
    omega
  · intro k hk
    have hlen := hpre.length_le
    simp only [List.length_map, sizedBubbles_eq_map, List.length_take] at hlen
    have hp : k < processes.length := by omega
    have hk1 : k < (out.map Bubble.sized).length := by simpa using hk
    have hget := hpre.getElem hk1
    simp only [List.getElem_map, sizedBubbles_eq_map, List.getElem_take, Bubble.sized,
      Prod.mk.injEq] at hget
    exact ⟨hp, hget.2.1, hget.2.2.1⟩


theorem minMax_foldl_tie (l : List (ProcessInfo K)) (sortMode : String) (v : K)
    (htie : ∀ p ∈ l, getValue p sortMode = v) :
    l.foldl (minMaxStep sortMode) (v, v) = (v, v) := by
  induction l with
  | nil => rfl
  | cons p rest ih =>
    have hp : getValue p sortMode = v := htie p (List.mem_cons_self _ _)
    have hstep : minMaxStep sortMode (v, v) p = (v, v) := by
      simp [minMaxStep, hp]
    rw [List.foldl_cons, hstep]
    exact ih fun q hq => htie q (List.mem_cons_of_mem _ hq)

theorem minMax_tie (l : List (ProcessInfo K)) (sortMode : String) (v : K)
    (hv0 : 0 ≤ v) (hvmax : v ≤ MaxFloat64) (hne : l ≠ [])
    (htie : ∀ p ∈ l, getValue p sortMode = v) : minMax l sortMode = (v, v) := by
  cases l with
  | nil => exact absurd rfl hne
  | cons p rest =>
    have hp : getValue p sortMode = v := htie p (List.mem_cons_self _ _)
    have h1 : (if v > 0 then v else 0) = v := by
      split_ifs with h
      · rfl
      · exact le_antisymm hv0 (not_lt.mp h)
    have h2 : (if v < MaxFloat64 then v else MaxFloat64) = v := by
      split_ifs with h
      · rfl
      · exact le_antisymm (not_lt.mp h) hvmax
    have hstep : minMaxStep sortMode (0, MaxFloat64) p = (v, v) := by
      simp only [minMaxStep, hp, h1, h2]
    rw [minMax, List.foldl_cons, hstep]
    exact minMax_foldl_tie rest sortMode v fun q hq => htie q (List.mem_cons_of_mem _ hq)

/-- A tie at a value `v` with `0 ≤ v ≤ math.MaxFloat64`: every bubble has radius
3 and the cyan bucket `12`. -/
theorem tie_radius_and_colour_of_range (M : MathFns K) (processes : List (ProcessInfo K))
    (sortMode : String) (maxBubbles width height : Int) (v : K)
    (hmax : 0 ≤ maxBubbles) (hv0 : 0 ≤ v) (hvmax : v ≤ MaxFloat64)
    (htie : ∀ p ∈ processes.take maxBubbles.toNat, getValue p sortMode = v) :
    ∃ out, packBubbles M processes sortMode maxBubbles width height = some out ∧
      ∀ b ∈ out, b.Radius = 3 ∧ b.ColorHex = "12" := by
  obtain ⟨out, hout, hpre, -, -⟩ :=
    packBubbles_spec M processes sortMode maxBubbles width height hmax
  refine ⟨out, hout, ?_⟩
  intro b hb
  have hmem : b.sized ∈
      (sizedBubbles M (processes.take maxBubbles.toNat) sortMode width height).map
        Bubble.sized :=
    hpre.subset (List.mem_map_of_mem _ hb)
  rw [sizedBubbles_eq_map, List.map_map] at hmem
  obtain ⟨p, hp, hpb⟩ := List.mem_map.mp hmem
  have hne : processes.take maxBubbles.toNat ≠ [] := List.ne_nil_of_mem hp
  have hmm := minMax_tie (processes.take maxBubbles.toNat) sortMode v hv0 hvmax hne htie
  simp only [Function.comp, Bubble.sized, hmm, Prod.mk.injEq] at hpb
  refine ⟨?_, ?_⟩
  · rw [← hpb.1]
    simp [calculateBubbleSize]
  · rw [← hpb.2.2.2]
    simp [getColor]

/-- The metric of a process sample is non-negative and finite under every sort
mode. -/
theorem getValue_range (p : ProcessInfo K) (sortMode : String) (hp : validSample p) :
    0 ≤ getValue p sortMode ∧ getValue p sortMode ≤ MaxFloat64 := by
  obtain ⟨h1, h2, h3, h4, h5, h6⟩ := hp
  have hthreads : (0 : K) ≤ (p.NumThreads : K) ∧ (p.NumThreads : K) ≤ MaxFloat64 := by
    have h7 : (p.NumThreads : K) ≤ ((2147483647 : Int) : K) := by exact_mod_cast h6
    have h8 : (((2147483647 : Int) : K)) ≤ MaxFloat64 := by
      unfold MaxFloat64
      norm_num
    exact ⟨by exact_mod_cast h5, le_trans h7 h8⟩
  unfold getValue
  split_ifs
  · exact ⟨h1, h2⟩
  · exact ⟨h3, h4⟩
  · exact hthreads
  · exact ⟨h1, h2⟩

/-- C5: tie invariant.  For every list of process samples, every sort mode,
every cap `maxBubbles ≥ 0` and every canvas size: if the first
`min(maxBubbles, len)` processes all have the same metric value under the sort
mode, then `packBubbles` returns a list in which every bubble has radius 3 and
the cyan bucket `12`. -/
theorem C5_tie_radius_and_colour (M : MathFns K) (processes : List (ProcessInfo K))
    (sortMode : String) (maxBubbles width height : Int) (v : K)
    (hmax : 0 ≤ maxBubbles) (hvalid : ∀ p ∈ processes, validSample p)
    (htie : ∀ p ∈ processes.take maxBubbles.toNat, getValue p sortMode = v) :
    ∃ out, packBubbles M processes sortMode maxBubbles width height = some out ∧
      ∀ b ∈ out, b.Radius = 3 ∧ b.ColorHex = "12" := by
  cases htop : processes.take maxBubbles.toNat with
  | nil =>
    have h00 : (0 : K) ≤ MaxFloat64 := by
      unfold MaxFloat64
      norm_num
    exact tie_radius_and_colour_of_range M processes sortMode maxBubbles width height 0 hmax
      (le_refl _) h00 (by rw [htop]; intro p hp; cases hp)
  | cons q rest =>
    have hq : q ∈ processes.take maxBubbles.toNat := by rw [htop]; exact List.mem_cons_self _ _
    have hv : getValue q sortMode = v := htie q hq
    obtain ⟨h0, h1⟩ := getValue_range q sortMode (hvalid q (List.mem_of_mem_take hq))
    rw [hv] at h0 h1
    exact tie_radius_and_colour_of_range M processes sortMode maxBubbles width height v hmax
      h0 h1 htie

end PackClaims

/-- C2 (witness): `C2_no_overlap` at three processes with CPU values 50, 50, 10,
`maxBubbles = 3`, on a 40 by 20 canvas, with the real square root, cosine and
sine. -/
theorem C2_no_overlap_witness :
    (0 : Int) ≤ 3 ∧
    ∃ out, packBubbles (⟨Real.sqrt, Real.cos, Real.sin⟩ : MathFns ℝ)
        scenarioProcs "cpu" 3 40 20 = some out ∧
      ∀ (i j : Nat) (hi : i < out.length) (hj : j < out.length), i ≠ j →
        out[i].Radius + out[j].Radius + 1 ≤
            Real.sqrt ((out[i].X - out[j].X) * (out[i].X - out[j].X) +
              (out[i].Y - out[j].Y) * (out[i].Y - out[j].Y)) ∧
          out[i].Radius + out[j].Radius ≤
            Real.sqrt ((out[i].X - out[j].X) * (out[i].X - out[j].X) +
              (out[i].Y - out[j].Y) * (out[i].Y - out[j].Y)) :=
  ⟨by decide, C2_no_overlap _ _ _ _ _ _ (by decide)⟩

/-- C4 (witness): `C4_rank_order_prefix` at three processes with CPU values 50,
50, 10, `maxBubbles = 2`, on a 40 by 20 canvas. -/
theorem C4_rank_order_prefix_witness :
    (0 : Int) ≤ 2 ∧
    ∃ out, packBubbles (⟨Real.sqrt, Real.cos, Real.sin⟩ : MathFns ℝ)
        scenarioProcs "cpu" 2 40 20 = some out ∧
      (out.length : Int) ≤ min 2 ((scenarioProcs : List (ProcessInfo ℝ)).length : Int) ∧
      ∀ (k : Nat) (hk : k < out.length),
        ∃ hp : k < (scenarioProcs : List (ProcessInfo ℝ)).length,
        out[k].Process = (scenarioProcs : List (ProcessInfo ℝ))[k] ∧
        out[k].Value = getValue (scenarioProcs : List (ProcessInfo ℝ))[k] "cpu" :=
  ⟨by decide, C4_rank_order_prefix _ _ _ _ _ _ (by decide)⟩


/-- C5 (witness): the three scenario processes are samples with non-negative
values, and the first two both have the CPU value 50. -/
theorem C5_tie_radius_and_colour_witness :
    (0 : Int) ≤ 2 ∧ (∀ p ∈ (scenarioProcs : List (ProcessInfo ℝ)), validSample p) ∧
    (∀ p ∈ (scenarioProcs : List (ProcessInfo ℝ)).take (2 : Int).toNat,
      getValue p "cpu" = 50) ∧
    ∃ out, packBubbles (⟨Real.sqrt, Real.cos, Real.sin⟩ : MathFns ℝ)
        scenarioProcs "cpu" 2 40 20 = some out ∧
      ∀ b ∈ out, b.Radius = 3 ∧ b.ColorHex = "12" :=
  have h1 : ∀ p ∈ (scenarioProcs : List (ProcessInfo ℝ)), validSample p := by
    simp only [scenarioProcs, validSample, MaxFloat64, List.mem_cons, List.mem_singleton,
      List.not_mem_nil, or_false, forall_eq_or_imp, forall_eq]
    norm_num
  have h2 : ∀ p ∈ (scenarioProcs : List (ProcessInfo ℝ)).take (2 : Int).toNat,
      getValue p "cpu" = 50 := by
    simp [scenarioProcs, getValue]
  ⟨by decide, h1, h2, C5_tie_radius_and_colour _ _ _ _ _ _ 50 (by decide) h1 h2⟩

theorem packBubbles_singleton {K : Type} [LinearOrderedField K] [FloorRing K]
    (M : MathFns K) (p : ProcessInfo K) (sortMode : String) (maxBubbles width height : Int)
    (hmax : 1 ≤ maxBubbles) :
    packBubbles M [p] sortMode maxBubbles width height =
      some [{ X := (width : K) / 2, Y := (height : K) / 2,
              Radius := calculateBubbleSize M (getValue p sortMode) (minMax [p] sortMode).1
                (minMax [p] sortMode).2 width height,
              Process := p, Value := getValue p sortMode,
              ColorHex := getColor (getValue p sortMode) (minMax [p] sortMode).1
                (minMax [p] sortMode).2 }] := by
  have hcount : (if maxBubbles > (([p] : List (ProcessInfo K)).length : Int) then
      (([p] : List (ProcessInfo K)).length : Int) else maxBubbles) = 1 := by
    simp only [List.length_singleton, Nat.cast_one]
    split_ifs <;> omega
  simp only [packBubbles, hcount]
  simp [sizedBubbles, placeRemaining]

/-- C3 (failing input): one process on a 40 by 10 canvas.  Its bubble is put at
the centre `(20, 5)` with radius 3 without any bounds test, so `Y - Radius = 2`
is above the reserved row 3 and `Y + Radius = 8` reaches `height - 2`. -/
theorem C3_first_bubble_out_of_bounds :
    packBubbles (⟨Real.sqrt, Real.cos, Real.sin⟩ : MathFns ℝ) [sampleProc 5] "cpu" 1 40 10 =
      some [{ X := 20, Y := 5, Radius := 3, Process := sampleProc 5, Value := 5,
              ColorHex := "12" }] ∧
    ¬ ((3 : ℝ) ≤ 5 - 3) ∧ ¬ ((5 : ℝ) + 3 < ((10 - 2 : Int) : ℝ)) := by
  have hmm : minMax ([sampleProc 5] : List (ProcessInfo ℝ)) "cpu" = (5, 5) := by
    simp only [minMax, List.foldl_cons, List.foldl_nil, minMaxStep, getValue, MaxFloat64,
      sampleProc]
    norm_num
  have hv : getValue (sampleProc 5 : ProcessInfo ℝ) "cpu" = 5 := by
    simp [getValue, sampleProc]
  refine ⟨?_, by norm_num, by norm_num⟩
  rw [packBubbles_singleton _ _ _ _ _ _ (by decide), hmm, hv]
  norm_num [calculateBubbleSize, getColor]

section SpiralSteps

variable {K : Type} [LinearOrderedField K] [FloorRing K]

theorem two_Pi_gt_six : (6 : K) < 2 * Pi := by
  unfold Pi
  norm_num

theorem tryAngles_reject (M : MathFns K) (placed : List (Bubble K)) (cX cY r : K)
    (width height : Int) (d angle : K) (hlt : angle < 2 * Pi)
    (hrej : (collides M placed (cX + d * M.Cos angle) (cY + d * M.Sin angle) r ||
      outOfBounds (cX + d * M.Cos angle) (cY + d * M.Sin angle) r width height) = true) :
    tryAngles M placed cX cY r width height d angle =
      tryAngles M placed cX cY r width height d (angle + 3 / 10) := by
  rw [tryAngles, dif_pos hlt]
  simp only [hrej, if_true]

theorem tryAngles_accept (M : MathFns K) (placed : List (Bubble K)) (cX cY r : K)
    (width height : Int) (d angle : K) (hlt : angle < 2 * Pi)
    (hc : collides M placed (cX + d * M.Cos angle) (cY + d * M.Sin angle) r = false)
    (ho : outOfBounds (cX + d * M.Cos angle) (cY + d * M.Sin angle) r width height = false) :
    tryAngles M placed cX cY r width height d angle =
      some (cX + d * M.Cos angle, cY + d * M.Sin angle) := by
  rw [tryAngles, dif_pos hlt]
  simp [hc, ho]

theorem tryAngles_none_of_all_collide (M : MathFns K) (placed : List (Bubble K)) (cX cY r : K)
    (width height : Int) (d : K)
    (hall : ∀ a, collides M placed (cX + d * M.Cos a) (cY + d * M.Sin a) r = true)
    (angle : K) : tryAngles M placed cX cY r width height d angle = none := by
  induction angle using tryAngles.induct M placed cX cY r width height d with
  | case1 a hlt x y hc ih => rw [tryAngles_reject M placed cX cY r width height d a hlt hc, ih]
  | case2 a hlt x y hc =>
    exfalso
    apply hc
    simp [x, y, hall a]
  | case3 a hlt => rw [tryAngles, dif_neg hlt]

theorem trySpiral_next (M : MathFns K) (placed : List (Bubble K)) (cX cY r : K)
    (width height : Int) (d : K) (hlt : d < (width : K) * 2)
    (hnone : tryAngles M placed cX cY r width height d 0 = none) :
    trySpiral M placed cX cY r width height d =
      trySpiral M placed cX cY r width height (d + 2) := by
  rw [trySpiral, dif_pos hlt]
  simp only [hnone]

theorem trySpiral_found (M : MathFns K) (placed : List (Bubble K)) (cX cY r : K)
    (width height : Int) (d : K) (p : K × K) (hlt : d < (width : K) * 2)
    (hsome : tryAngles M placed cX cY r width height d 0 = some p) :
    trySpiral M placed cX cY r width height d = some p := by
  rw [trySpiral, dif_pos hlt]
  simp only [hsome]

end SpiralSteps

theorem collides_centre_real (b0 : Bubble ℝ) (rest : List (Bubble ℝ)) (r d a : ℝ)
    (hd : |d| < r + b0.Radius + 1) :
    collides (⟨Real.sqrt, Real.cos, Real.sin⟩ : MathFns ℝ) (b0 :: rest)
      (b0.X + d * Real.cos a) (b0.Y + d * Real.sin a) r = true := by
  have e : (b0.X + d * Real.cos a - b0.X) * (b0.X + d * Real.cos a - b0.X) +
      (b0.Y + d * Real.sin a - b0.Y) * (b0.Y + d * Real.sin a - b0.Y) = d ^ 2 := by
    have := Real.cos_sq_add_sin_sq a
    nlinarith
  simp only [collides, List.any_cons, e, Real.sqrt_sq_eq_abs]
  simp [hd]


theorem cos_lower_real (x : ℝ) (hx : |x| ≤ 1) :
    1 - x ^ 2 / 2 - |x| ^ 4 * (5 / 96) ≤ Real.cos x := by
  have := (abs_le.mp (Real.cos_bound hx)).1
  linarith

theorem cos_upper_real (x : ℝ) (hx : |x| ≤ 1) :
    Real.cos x ≤ 1 - x ^ 2 / 2 + |x| ^ 4 * (5 / 96) := by
  have := (abs_le.mp (Real.cos_bound hx)).2
  linarith

theorem sin_upper_real (x : ℝ) (hx : |x| ≤ 1) :
    Real.sin x ≤ x - x ^ 3 / 6 + |x| ^ 4 * (5 / 96) := by
  have := (abs_le.mp (Real.sin_bound hx)).2
  linarith

theorem cos_three_tenths : (799 / 1144 : ℝ) < Real.cos (3 / 10) := by
  have h := cos_lower_real (3 / 10) (by rw [abs_of_pos] <;> norm_num)
  rw [abs_of_pos (by norm_num : (0 : ℝ) < 3 / 10)] at h
  norm_num at h
  linarith

theorem cos_six_tenths : (799 / 1144 : ℝ) < Real.cos (6 / 10) := by
  have h := cos_lower_real (6 / 10) (by rw [abs_of_pos] <;> norm_num)
  rw [abs_of_pos (by norm_num : (0 : ℝ) < 6 / 10)] at h
  norm_num at h
  linarith

theorem cos_nine_tenths : Real.cos (9 / 10) ≤ (799 / 1144 : ℝ) := by
  have h := cos_upper_real (9 / 10) (by rw [abs_of_pos] <;> norm_num)
  rw [abs_of_pos (by norm_num : (0 : ℝ) < 9 / 10)] at h
  norm_num at h
  linarith

theorem sin_nine_tenths : Real.sin (9 / 10) < (9 / 11 : ℝ) := by
  have h := sin_upper_real (9 / 10) (by rw [abs_of_pos] <;> norm_num)
  rw [abs_of_pos (by norm_num : (0 : ℝ) < 9 / 10)] at h
  norm_num at h
  linarith

theorem sin_nine_tenths_nonneg : 0 ≤ Real.sin (9 / 10) :=
  Real.sin_nonneg_of_nonneg_of_le_pi (by norm_num) (by linarith [Real.pi_gt_three])


theorem scenario_minMax (p0 p1 p2 : ProcessInfo ℝ) (h0 : p0.CPUPercent = 50)
    (h1 : p1.CPUPercent = 50) (h2 : p2.CPUPercent = 10) :
    minMax [p0, p1, p2] "cpu" = (50, 10) := by
  simp only [minMax, List.foldl_cons, List.foldl_nil, minMaxStep, getValue, MaxFloat64,
    h0, h1, h2]
  norm_num

theorem scenario_sized (p0 p1 p2 : ProcessInfo ℝ) (h0 : p0.CPUPercent = 50)
    (h1 : p1.CPUPercent = 50) (h2 : p2.CPUPercent = 10) :
    sizedBubbles (⟨Real.sqrt, Real.cos, Real.sin⟩ : MathFns ℝ) [p0, p1, p2] "cpu" 40 20 =
      [{ X := 0, Y := 0, Radius := 10 / 3, Process := p0, Value := 50, ColorHex := "9" },
       { X := 0, Y := 0, Radius := 10 / 3, Process := p1, Value := 50, ColorHex := "9" },
       { X := 0, Y := 0, Radius := 2, Process := p2, Value := 10, ColorHex := "10" }] := by
  have hmin : min (((40 : Int) : ℝ) / 8) (((20 : Int) : ℝ) / 6) = 10 / 3 := by
    rw [min_eq_right] <;> norm_num
  rw [sizedBubbles_eq_map, scenario_minMax p0 p1 p2 h0 h1 h2]
  simp only [List.map_cons, List.map_nil, getValue, h0, h1, h2, calculateBubbleSize, getColor,
    hmin]
  norm_num

theorem scenario_second (b0 : Bubble ℝ) (hx : b0.X = 20) (hy : b0.Y = 10)
    (hr : b0.Radius = 10 / 3) :
    trySpiral (⟨Real.sqrt, Real.cos, Real.sin⟩ : MathFns ℝ) [b0] 20 10 (10 / 3) 40 20
      (10 / 3 + 10 / 3) = some (86 / 3, 10) := by
  have hnone : tryAngles (⟨Real.sqrt, Real.cos, Real.sin⟩ : MathFns ℝ) [b0] 20 10 (10 / 3)
      40 20 (10 / 3 + 10 / 3) 0 = none := by
    apply tryAngles_none_of_all_collide
    intro a
    have := collides_centre_real b0 [] (10 / 3) (10 / 3 + 10 / 3) a (by
      rw [hr, abs_of_pos] <;> norm_num)
    rw [hx, hy] at this
    exact this
  rw [trySpiral_next _ _ _ _ _ _ _ _ (by norm_num) hnone]
  apply trySpiral_found _ _ _ _ _ _ _ _ _ (by norm_num)
  have hacc := tryAngles_accept (⟨Real.sqrt, Real.cos, Real.sin⟩ : MathFns ℝ) [b0] 20 10
    (10 / 3) 40 20 (10 / 3 + 10 / 3 + 2) 0 (by linarith [two_Pi_gt_six (K := ℝ)])
    (by
      rw [collides_eq_false_iff]
      intro bj hbj
      rw [List.mem_singleton] at hbj
      subst hbj
      simp only [Real.cos_zero, Real.sin_zero, hx, hy, hr]
      apply Real.le_sqrt_of_sq_le
      norm_num)
    (by
      rw [outOfBounds_eq_false_iff]
      simp only [Real.cos_zero, Real.sin_zero]
      norm_num)
  rw [hacc]
  simp only [Real.cos_zero, Real.sin_zero]
  norm_num


theorem scenario_third_collides (b0 b1 : Bubble ℝ) (hx : b1.X = 86 / 3) (hy : b1.Y = 10)
    (hr : b1.Radius = 10 / 3) (a : ℝ) (ha : 799 / 1144 < Real.cos a) :
    (collides (⟨Real.sqrt, Real.cos, Real.sin⟩ : MathFns ℝ) [b0, b1]
        (20 + 22 / 3 * Real.cos a) (10 + 22 / 3 * Real.sin a) 2 ||
      outOfBounds (20 + 22 / 3 * Real.cos a) (10 + 22 / 3 * Real.sin a) 2 40 20) = true := by
  have hsq := Real.cos_sq_add_sin_sq a
  have hlt : Real.sqrt ((20 + 22 / 3 * Real.cos a - 86 / 3) * (20 + 22 / 3 * Real.cos a - 86 / 3) +
      (10 + 22 / 3 * Real.sin a - 10) * (10 + 22 / 3 * Real.sin a - 10)) < 2 + 10 / 3 + 1 := by
    rw [Real.sqrt_lt' (by norm_num)]
    nlinarith
  simp only [collides, List.any_cons, List.any_nil, hx, hy, hr, Bool.or_false, Bool.or_eq_true,
    decide_eq_true_eq]
  exact Or.inl (Or.inr hlt)

theorem scenario_third (b0 b1 : Bubble ℝ) (hx0 : b0.X = 20) (hy0 : b0.Y = 10)
    (hr0 : b0.Radius = 10 / 3) (hx1 : b1.X = 86 / 3) (hy1 : b1.Y = 10)
    (hr1 : b1.Radius = 10 / 3) :
    trySpiral (⟨Real.sqrt, Real.cos, Real.sin⟩ : MathFns ℝ) [b0, b1] 20 10 2 40 20
      (2 + 10 / 3) =
      some (20 + 22 / 3 * Real.cos (9 / 10), 10 + 22 / 3 * Real.sin (9 / 10)) := by
  have hnone : tryAngles (⟨Real.sqrt, Real.cos, Real.sin⟩ : MathFns ℝ) [b0, b1] 20 10 2
      40 20 (2 + 10 / 3) 0 = none := by
    apply tryAngles_none_of_all_collide
    intro a
    have := collides_centre_real b0 [b1] 2 (2 + 10 / 3) a (by
      rw [hr0, abs_of_pos] <;> norm_num)
    rw [hx0, hy0] at this
    exact this
  have h6 := two_Pi_gt_six (K := ℝ)
  rw [trySpiral_next _ _ _ _ _ _ _ _ (by norm_num) hnone,
    show (2 : ℝ) + 10 / 3 + 2 = 22 / 3 by norm_num]
  apply trySpiral_found _ _ _ _ _ _ _ _ _ (by norm_num)
  rw [tryAngles_reject _ _ _ _ _ _ _ _ 0 (by linarith)
      (scenario_third_collides b0 b1 hx1 hy1 hr1 0 (by rw [Real.cos_zero]; norm_num)),
    show (0 : ℝ) + 3 / 10 = 3 / 10 by norm_num,
    tryAngles_reject _ _ _ _ _ _ _ _ (3 / 10) (by linarith)
      (scenario_third_collides b0 b1 hx1 hy1 hr1 (3 / 10) cos_three_tenths),
    show (3 : ℝ) / 10 + 3 / 10 = 6 / 10 by norm_num,
    tryAngles_reject _ _ _ _ _ _ _ _ (6 / 10) (by linarith)
      (scenario_third_collides b0 b1 hx1 hy1 hr1 (6 / 10) cos_six_tenths),
    show (6 : ℝ) / 10 + 3 / 10 = 9 / 10 by norm_num]
  have hsq := Real.cos_sq_add_sin_sq (9 / 10)
  have hc := cos_nine_tenths
  have hs := sin_nine_tenths
  have hs0 := sin_nine_tenths_nonneg
  have hc1 := Real.neg_one_le_cos (9 / 10)
  have hc2 := Real.cos_le_one (9 / 10)
  apply tryAngles_accept _ _ _ _ _ _ _ _ (9 / 10) (by linarith)
  · rw [collides_eq_false_iff]
    intro bj hbj
    simp only [List.mem_cons, List.mem_singleton, List.not_mem_nil, or_false] at hbj
    rcases hbj with rfl | rfl
    · rw [hx0, hy0, hr0]
      apply Real.le_sqrt_of_sq_le
      nlinarith
    · rw [hx1, hy1, hr1]
      apply Real.le_sqrt_of_sq_le
      nlinarith
  · rw [outOfBounds_eq_false_iff]
    refine ⟨?_, ?_, ?_, ?_⟩
    · show (0 : ℝ) ≤ 20 + 22 / 3 * Real.cos (9 / 10) - 2
      linarith
    · show 20 + 22 / 3 * Real.cos (9 / 10) + 2 < (((40 : Int) : ℝ))
      norm_num
      linarith
    · show (3 : ℝ) ≤ 10 + 22 / 3 * Real.sin (9 / 10) - 2
      linarith
    · show 10 + 22 / 3 * Real.sin (9 / 10) + 2 < (((20 - 2 : Int) : Int) : ℝ)
      norm_num
      linarith


theorem scenario_layout (p0 p1 p2 : ProcessInfo ℝ) (h0 : p0.CPUPercent = 50)
    (h1 : p1.CPUPercent = 50) (h2 : p2.CPUPercent = 10) :
    packBubbles (⟨Real.sqrt, Real.cos, Real.sin⟩ : MathFns ℝ) [p0, p1, p2] "cpu" 3 40 20 =
      some
        [{ X := 20, Y := 10, Radius := 10 / 3, Process := p0, Value := 50, ColorHex := "9" },
         { X := 86 / 3, Y := 10, Radius := 10 / 3, Process := p1, Value := 50, ColorHex := "9" },
         { X := 20 + 22 / 3 * Real.cos (9 / 10), Y := 10 + 22 / 3 * Real.sin (9 / 10),
           Radius := 2, Process := p2, Value := 10, ColorHex := "10" }] := by
  have hcx : ((40 : Int) : ℝ) / 2 = 20 := by norm_num
  have hcy : ((20 : Int) : ℝ) / 2 = 10 := by norm_num
  have hcount : (if (3 : Int) > (([p0, p1, p2] : List (ProcessInfo ℝ)).length : Int) then
      (([p0, p1, p2] : List (ProcessInfo ℝ)).length : Int) else 3) = 3 := by
    simp
  have hs1 := scenario_second
    { X := 20, Y := 10, Radius := 10 / 3, Process := p0, Value := 50, ColorHex := "9" }
    rfl rfl rfl
  have hs2 := scenario_third
    { X := 20, Y := 10, Radius := 10 / 3, Process := p0, Value := 50, ColorHex := "9" }
    { X := 86 / 3, Y := 10, Radius := 10 / 3, Process := p1, Value := 50, ColorHex := "9" }
    rfl rfl rfl rfl rfl rfl
  simp only [packBubbles, hcount, hcx, hcy]
  have htake : List.take (3 : Int).toNat [p0, p1, p2] = [p0, p1, p2] := by
    simp
  rw [htake, scenario_sized p0 p1 p2 h0 h1 h2]
  simp [placeRemaining, hs1, hs2]

/-- C6: the scenario of the specification over the reals.  For three processes
with CPU values 50, 50 and 10, sort mode `cpu`, `maxBubbles = 3` on a 40 by 20
canvas, `packBubbles` returns exactly three bubbles; bubbles 0 and 1 have the
same radius, strictly larger than the radius of bubble 2; bubbles 0 and 1 have
the red bucket `9` and bubble 2 the green bucket `10`. -/
theorem C6_scenario (p0 p1 p2 : ProcessInfo ℝ) (h0 : p0.CPUPercent = 50)
    (h1 : p1.CPUPercent = 50) (h2 : p2.CPUPercent = 10) :
    ∃ b0 b1 b2 : Bubble ℝ,
      packBubbles (⟨Real.sqrt, Real.cos, Real.sin⟩ : MathFns ℝ) [p0, p1, p2] "cpu" 3 40 20 =
        some [b0, b1, b2] ∧
      b0.Process = p0 ∧ b1.Process = p1 ∧ b2.Process = p2 ∧
      b0.Radius = b1.Radius ∧ b2.Radius < b0.Radius ∧
      b0.ColorHex = b1.ColorHex ∧ b0.ColorHex = "9" ∧ b2.ColorHex = "10" :=
  ⟨_, _, _, scenario_layout p0 p1 p2 h0 h1 h2, rfl, rfl, rfl, rfl, by norm_num, rfl, rfl, rfl⟩

/-- C6 (witness): `C6_scenario` at three `init` processes with the CPU values 50,
50 and 10. -/
theorem C6_scenario_witness :
    (sampleProc 50 : ProcessInfo ℝ).CPUPercent = 50 ∧
    (sampleProc 50 : ProcessInfo ℝ).CPUPercent = 50 ∧
    (sampleProc 10 : ProcessInfo ℝ).CPUPercent = 10 ∧
    ∃ b0 b1 b2 : Bubble ℝ,
      packBubbles (⟨Real.sqrt, Real.cos, Real.sin⟩ : MathFns ℝ)
        [sampleProc 50, sampleProc 50, sampleProc 10] "cpu" 3 40 20 = some [b0, b1, b2] ∧
      b0.Process = sampleProc 50 ∧ b1.Process = sampleProc 50 ∧ b2.Process = sampleProc 10 ∧
      b0.Radius = b1.Radius ∧ b2.Radius < b0.Radius ∧
      b0.ColorHex = b1.ColorHex ∧ b0.ColorHex = "9" ∧ b2.ColorHex = "10" :=
  ⟨rfl, rfl, rfl, C6_scenario (sampleProc 50) (sampleProc 50) (sampleProc 10) rfl rfl rfl⟩

section RasterTheorems

variable {K : Type} [LinearOrderedField K] [FloorRing K]

theorem drawBubble_empty_canvas (M : MathFns K) (U : UiFns K) (colors : List (List String))
    (b : Bubble K) (sortMode : String) : drawBubble M U [] colors b sortMode = none := rfl

theorem foldlM_none_of_first {α β : Type} (f : β → α → Option β) (init : β) (a : α)
    (l : List α) (h : f init a = none) : (a :: l).foldlM f init = none := by
  simp [List.foldlM_cons, h]

/-- C10 (failing input): on a canvas of height 0 the canvas has no row, and for
any list with at least one bubble `drawBubble` fails at `len(canvas[0])`: the
index is out of range and `renderBubbles` panics, for every width and sort mode. -/
theorem C10_render_fails_on_empty_canvas (M : MathFns K) (U : UiFns K) (b : Bubble K)
    (bubbles : List (Bubble K)) (width : Int) (sortMode : String) :
    renderBubbles M U (b :: bubbles) width 0 sortMode = none := by
  unfold renderBubbles
  simp only [lt_self_iff_false, if_false, false_and, Int.toNat_zero, List.replicate_zero]
  rw [foldlM_none_of_first _ _ _ _ (drawBubble_empty_canvas M U [] b sortMode)]

end RasterTheorems
section RasterTotal

variable {K : Type} [LinearOrderedField K] [FloorRing K]

theorem setCell_rect {α : Type} (g : List (List α)) (h w : Nat) (hg : rect g h w)
    (y x : Int) (v : α) (hy0 : 0 ≤ y) (hy : y < (h : Int)) (hx0 : 0 ≤ x) (hx : x < (w : Int)) :
    ∃ g1, setCell g y x v = some g1 ∧ rect g1 h w := by
  obtain ⟨hlen, hrows⟩ := hg
  have hyn : y.toNat < g.length := by omega
  have hrow : (g[y.toNat]).length = w := hrows _ (List.getElem_mem _)
  refine ⟨g.set y.toNat ((g[y.toNat]).set x.toNat v), ?_, ?_, ?_⟩
  · unfold setCell
    rw [if_pos ⟨hy0, by omega⟩, List.getElem?_eq_getElem hyn]
    simp only
    rw [if_pos ⟨hx0, by omega⟩]
  · simp [hlen]
  · intro row hr
    rcases List.mem_or_eq_of_mem_set hr with hr | rfl
    · exact hrows row hr
    · simp [hrow]


theorem drawOutline_rect (M : MathFns K) (b : Bubble K) (h w : Nat) (angle : K)
    (canvas : List (List Char)) (colors : List (List String))
    (hcv : rect canvas h w) (hcl : rect colors h w) :
    ∃ cv cl, drawOutline M b (h : Int) (w : Int) angle canvas colors = some (cv, cl) ∧
      rect cv h w ∧ rect cl h w := by
  induction angle, canvas, colors using drawOutline.induct M b (h : Int) (w : Int) with
  | case1 a cv cl hlt x y hin cv1 cl1 hs2 hs1 ih =>
    obtain ⟨cv2, hcv2, hr2⟩ := setCell_rect cv h w hcv y x circleGlyph hin.1 hin.2.1
      hin.2.2.1 hin.2.2.2
    obtain ⟨cl2, hcl2, hr3⟩ := setCell_rect cl h w hcl y x b.ColorHex hin.1 hin.2.1
      hin.2.2.1 hin.2.2.2
    rw [hs1] at hcv2
    rw [hs2] at hcl2
    cases hcv2
    cases hcl2
    obtain ⟨cv3, cl3, h3, hr4, hr5⟩ := ih hr2 hr3
    refine ⟨cv3, cl3, ?_, hr4, hr5⟩
    rw [drawOutline, dif_pos hlt]
    simp only [x, y] at hin hs1 hs2
    simp only [if_pos hin, hs1, hs2]
    exact h3
  | case2 a cv cl hlt x y hin hnone =>
    exfalso
    obtain ⟨cv2, hcv2, -⟩ := setCell_rect cv h w hcv y x circleGlyph hin.1 hin.2.1
      hin.2.2.1 hin.2.2.2
    obtain ⟨cl2, hcl2, -⟩ := setCell_rect cl h w hcl y x b.ColorHex hin.1 hin.2.1
      hin.2.2.1 hin.2.2.2
    exact hnone cv2 cl2 hcv2 hcl2
  | case3 a cv cl hlt x y hin ih =>
    obtain ⟨cv3, cl3, h3, hr4, hr5⟩ := ih hcv hcl
    refine ⟨cv3, cl3, ?_, hr4, hr5⟩
    rw [drawOutline, dif_pos hlt]
    simp only [x, y] at hin
    simp only [if_neg hin]
    exact h3
  | case4 a cv cl hlt =>
    refine ⟨cv, cl, ?_, hcv, hcl⟩
    rw [drawOutline, dif_neg hlt]

theorem drawLabel_rect (b : Bubble K) (labelX labelY : Int) (h w : Nat)
    (hy0 : 0 ≤ labelY) (hy : labelY < (h : Int)) (cells : List (Nat × Char))
    (canvas : List (List Char)) (colors : List (List String))
    (hcv : rect canvas h w) (hcl : rect colors h w) :
    ∃ cv cl, cells.foldlM (drawLabelCell b labelX labelY (w : Int)) (canvas, colors) =
        some (cv, cl) ∧ rect cv h w ∧ rect cl h w := by
  induction cells generalizing canvas colors with
  | nil => exact ⟨canvas, colors, rfl, hcv, hcl⟩
  | cons ic rest ih =>
    by_cases hin : labelX + (ic.1 : Int) ≥ 0 ∧ labelX + (ic.1 : Int) < (w : Int)
    · obtain ⟨cv2, hcv2, hr2⟩ := setCell_rect canvas h w hcv labelY (labelX + (ic.1 : Int))
        ic.2 hy0 hy hin.1 hin.2
      obtain ⟨cl2, hcl2, hr3⟩ := setCell_rect colors h w hcl labelY (labelX + (ic.1 : Int))
        b.ColorHex hy0 hy hin.1 hin.2
      obtain ⟨cv3, cl3, h3, hr4, hr5⟩ := ih cv2 cl2 hr2 hr3
      refine ⟨cv3, cl3, ?_, hr4, hr5⟩
      rw [List.foldlM_cons]
      have hstep : drawLabelCell b labelX labelY (w : Int) (canvas, colors) ic =
          some (cv2, cl2) := by
        simp only [drawLabelCell, if_pos hin, hcv2, hcl2]
      rw [hstep]
      exact h3
    · obtain ⟨cv3, cl3, h3, hr4, hr5⟩ := ih canvas colors hcv hcl
      refine ⟨cv3, cl3, ?_, hr4, hr5⟩
      rw [List.foldlM_cons]
      have hstep : drawLabelCell b labelX labelY (w : Int) (canvas, colors) ic =
          some (canvas, colors) := by
        simp only [drawLabelCell, if_neg hin]
      rw [hstep]
      exact h3

theorem truncate_twelve (s : List UInt8) : ∃ t, truncate s 12 = some t := by
  unfold truncate
  split_ifs with h1 h2
  · exact ⟨_, rfl⟩
  · omega
  · exact ⟨_, rfl⟩

theorem drawBubble_rect (M : MathFns K) (U : UiFns K) (b : Bubble K) (sortMode : String)
    (h w : Nat) (hh : 1 ≤ h) (canvas : List (List Char)) (colors : List (List String))
    (hcv : rect canvas h w) (hcl : rect colors h w) :
    ∃ cv cl, drawBubble M U canvas colors b sortMode = some (cv, cl) ∧
      rect cv h w ∧ rect cl h w := by
  cases canvas with
  | nil =>
    have := hcv.1
    simp at this
    omega
  | cons row0 rows =>
    have hw : (row0.length : Int) = (w : Int) := by
      rw [hcv.2 row0 (List.mem_cons_self _ _)]
    have hlen : (((row0 :: rows).length : Nat) : Int) = (h : Int) := by
      rw [hcv.1]
    obtain ⟨cv1, cl1, ho, hr1, hr2⟩ := drawOutline_rect M b h w 0 (row0 :: rows) colors hcv hcl
    obtain ⟨t, ht⟩ := truncate_twelve b.Process.Name
    simp only [drawBubble, hw, hlen, ho, ht]
    split_ifs with hy
    · exact drawLabel_rect b _ _ h w hy.1 hy.2 _ cv1 cl1 hr1 hr2
    · exact ⟨cv1, cl1, rfl, hr1, hr2⟩


theorem drawAll_rect (M : MathFns K) (U : UiFns K) (sortMode : String) (h w : Nat)
    (hh : 1 ≤ h) (bubbles : List (Bubble K)) (canvas : List (List Char))
    (colors : List (List String)) (hcv : rect canvas h w) (hcl : rect colors h w) :
    ∃ cv cl, bubbles.foldlM (fun st b => drawBubble M U st.1 st.2 b sortMode)
        (canvas, colors) = some (cv, cl) ∧ rect cv h w ∧ rect cl h w := by
  induction bubbles generalizing canvas colors with
  | nil => exact ⟨canvas, colors, rfl, hcv, hcl⟩
  | cons b rest ih =>
    obtain ⟨cv1, cl1, h1, hr1, hr2⟩ := drawBubble_rect M U b sortMode h w hh canvas colors hcv hcl
    obtain ⟨cv2, cl2, h2, hr3, hr4⟩ := ih cv1 cl1 hr1 hr2
    refine ⟨cv2, cl2, ?_, hr3, hr4⟩
    rw [List.foldlM_cons]
    simp only [h1]
    exact h2

theorem getCell_rect {α : Type} (g : List (List α)) (h w : Nat) (hg : rect g h w)
    (y x : Nat) (hy : y < h) (hx : x < w) : ∃ v, getCell g y x = some v := by
  have hyn : y < g.length := by rw [hg.1]; exact hy
  have hrow : (g[y]).length = w := hg.2 _ (List.getElem_mem _)
  have hxn : x < (g[y]).length := by rw [hrow]; exact hx
  exact ⟨(g[y])[x], by simp [getCell, List.getElem?_eq_getElem hyn, List.getElem?_eq_getElem hxn]⟩

theorem mapM_some_of_forall {α β : Type} (f : α → Option β) (l : List α)
    (hf : ∀ a ∈ l, ∃ b, f a = some b) : ∃ bs, l.mapM f = some bs ∧ bs.length = l.length := by
  induction l with
  | nil => exact ⟨[], rfl, rfl⟩
  | cons a rest ih =>
    obtain ⟨b, hb⟩ := hf a (List.mem_cons_self _ _)
    obtain ⟨bs, hbs, hlen⟩ := ih fun c hc => hf c (List.mem_cons_of_mem _ hc)
    refine ⟨b :: bs, ?_, by simp [hlen]⟩
    rw [List.mapM_cons, hb, hbs]
    rfl

theorem renderRow_rect (U : UiFns K) (canvas : List (List Char)) (colors : List (List String))
    (h w : Nat) (hcv : rect canvas h w) (hcl : rect colors h w) (height : Int) (y : Nat)
    (hy : y < h) : ∃ row, renderRow U canvas colors (w : Int) height y = some row := by
  obtain ⟨cells, hcells, -⟩ := mapM_some_of_forall (renderCell U canvas colors y)
    (List.range w) (by
      intro x hx
      rw [List.mem_range] at hx
      obtain ⟨c, hc⟩ := getCell_rect canvas h w hcv y x hy hx
      obtain ⟨d, hd⟩ := getCell_rect colors h w hcl y x hy hx
      simp only [renderCell, hc, hd]
      split_ifs <;> exact ⟨_, rfl⟩)
  simp only [renderRow, Int.toNat_ofNat, hcells]
  exact ⟨_, rfl⟩

/-- On a canvas with at least one row and a non-negative width `renderBubbles`
returns a string, for every list of bubbles: every canvas read and write is
within bounds there. -/
theorem renderBubbles_isSome (M : MathFns K) (U : UiFns K) (bubbles : List (Bubble K))
    (width height : Int) (sortMode : String) (hh : 1 ≤ height) (hw : 0 ≤ width) :
    ∃ out, renderBubbles M U bubbles width height sortMode = some out := by
  obtain ⟨h, rfl⟩ := Int.eq_ofNat_of_zero_le (by omega : 0 ≤ height)
  obtain ⟨w, rfl⟩ := Int.eq_ofNat_of_zero_le hw
  have hh1 : 1 ≤ h := by omega
  have hcv : rect (List.replicate h (List.replicate w ' ')) h w :=
    ⟨by simp, fun row hr => by rw [List.eq_of_mem_replicate hr]; simp⟩
  have hcl : rect (List.replicate h (List.replicate w "")) h w :=
    ⟨by simp, fun row hr => by rw [List.eq_of_mem_replicate hr]; simp⟩
  obtain ⟨cv, cl, hdraw, hr1, hr2⟩ := drawAll_rect M U sortMode h w hh1 bubbles _ _ hcv hcl
  obtain ⟨rows, hrows, -⟩ := mapM_some_of_forall (renderRow U cv cl (w : Int) (h : Int))
    (List.range h) (by
      intro y hy
      rw [List.mem_range] at hy
      exact renderRow_rect U cv cl h w hr1 hr2 _ y hy)
  unfold renderBubbles
  rw [if_neg (by omega), if_neg (by omega)]
  simp only [Int.toNat_ofNat, hdraw, hrows]
  exact ⟨_, rfl⟩

end RasterTotal

theorem negative_tie_sized :
    sizedBubbles (⟨Real.sqrt, Real.cos, Real.sin⟩ : MathFns ℝ)
        [sampleProc (-1), sampleProc (-1)] "cpu" 40 20 =
      [{ X := 0, Y := 0, Radius := 2, Process := sampleProc (-1), Value := -1,
         ColorHex := "10" },
       { X := 0, Y := 0, Radius := 2, Process := sampleProc (-1), Value := -1,
         ColorHex := "10" }] := by
  have hmm : minMax ([sampleProc (-1), sampleProc (-1)] : List (ProcessInfo ℝ)) "cpu" =
      (0, -1) := by
    simp only [minMax, List.foldl_cons, List.foldl_nil, minMaxStep, getValue, MaxFloat64,
      sampleProc]
    norm_num
  have hv : getValue (sampleProc (-1) : ProcessInfo ℝ) "cpu" = -1 := by
    simp [getValue, sampleProc]
  rw [sizedBubbles_eq_map, hmm]
  simp only [List.map_cons, List.map_nil, hv, calculateBubbleSize, getColor]
  norm_num

theorem negative_tie_second (b0 : Bubble ℝ) (hx : b0.X = 20) (hy : b0.Y = 10)
    (hr : b0.Radius = 2) :
    trySpiral (⟨Real.sqrt, Real.cos, Real.sin⟩ : MathFns ℝ) [b0] 20 10 2 40 20 (2 + 2) =
      some (26, 10) := by
  have hnone : tryAngles (⟨Real.sqrt, Real.cos, Real.sin⟩ : MathFns ℝ) [b0] 20 10 2
      40 20 (2 + 2) 0 = none := by
    apply tryAngles_none_of_all_collide
    intro a
    have := collides_centre_real b0 [] 2 (2 + 2) a (by
      rw [hr, abs_of_pos] <;> norm_num)
    rw [hx, hy] at this
    exact this
  rw [trySpiral_next _ _ _ _ _ _ _ _ (by norm_num) hnone]
  apply trySpiral_found _ _ _ _ _ _ _ _ _ (by norm_num)
  have hacc := tryAngles_accept (⟨Real.sqrt, Real.cos, Real.sin⟩ : MathFns ℝ) [b0] 20 10
    2 40 20 (2 + 2 + 2) 0 (by linarith [two_Pi_gt_six (K := ℝ)])
    (by
      rw [collides_eq_false_iff]
      intro bj hbj
      rw [List.mem_singleton] at hbj
      subst hbj
      simp only [Real.cos_zero, Real.sin_zero, hx, hy, hr]
      apply Real.le_sqrt_of_sq_le
      norm_num)
    (by
      rw [outOfBounds_eq_false_iff]
      simp only [Real.cos_zero, Real.sin_zero]
      norm_num)
  rw [hacc]
  simp only [Real.cos_zero, Real.sin_zero]
  norm_num

/-- The hypothesis `validSample` of the tie invariant is needed: for two records
with the same CPU value -1, which no process sample has, `maxValue` stays at its
initial `0.0`, the tie test `max = min` fails, and both bubbles get radius 2 and
the green bucket `10`. -/
theorem negative_tie_layout :
    packBubbles (⟨Real.sqrt, Real.cos, Real.sin⟩ : MathFns ℝ)
        [sampleProc (-1), sampleProc (-1)] "cpu" 2 40 20 =
      some
        [{ X := 20, Y := 10, Radius := 2, Process := sampleProc (-1), Value := -1,
           ColorHex := "10" },
         { X := 26, Y := 10, Radius := 2, Process := sampleProc (-1), Value := -1,
           ColorHex := "10" }] := by
  have hcx : ((40 : Int) : ℝ) / 2 = 20 := by norm_num
  have hcy : ((20 : Int) : ℝ) / 2 = 10 := by norm_num
  have hcount : (if (2 : Int) >
      (([sampleProc (-1), sampleProc (-1)] : List (ProcessInfo ℝ)).length : Int) then
      (([sampleProc (-1), sampleProc (-1)] : List (ProcessInfo ℝ)).length : Int) else 2) = 2 := by
    simp
  have hs1 := negative_tie_second
    { X := 20, Y := 10, Radius := 2, Process := sampleProc (-1), Value := -1, ColorHex := "10" }
    rfl rfl rfl
  simp only [packBubbles, hcount, hcx, hcy]
  have htake : List.take (2 : Int).toNat
      ([sampleProc (-1), sampleProc (-1)] : List (ProcessInfo ℝ)) =
      [sampleProc (-1), sampleProc (-1)] := by
    simp
  rw [htake, negative_tie_sized]
  simp [placeRemaining, hs1]

section TopN

variable {K : Type} [LinearOrderedField K] [FloorRing K]

theorem packBubbles_take (M : MathFns K) (processes : List (ProcessInfo K)) (sortMode : String)
    (maxBubbles width height : Int) (hmax : 0 ≤ maxBubbles) :
    packBubbles M processes sortMode maxBubbles width height =
      packBubbles M (processes.take maxBubbles.toNat) sortMode maxBubbles width height := by
  have hc : ∀ l : List (ProcessInfo K), ¬ (if maxBubbles > (l.length : Int) then
      (l.length : Int) else maxBubbles) < 0 := by
    intro l
    split_ifs <;> omega
  unfold packBubbles
  by_cases h0 : processes.length = 0
  · have : processes = [] := List.length_eq_zero.mp h0
    subst this
    simp
  · by_cases h1 : (processes.take maxBubbles.toNat).length = 0
    · have h2 : processes.take maxBubbles.toNat = [] := List.length_eq_zero.mp h1
      simp only [if_neg h0, if_neg (hc _), take_count_eq, h2, if_pos h1]
      simp [sizedBubbles]
    · simp only [if_neg h0, if_neg h1, if_neg (hc _)]
      rw [take_count_eq processes, take_count_eq (processes.take maxBubbles.toNat),
        List.take_take, min_self]

/-- C16: sizing, colouring and placement depend only on the visible top-N.  For
`maxBubbles ≥ 0`, `packBubbles` on a process list equals `packBubbles` on just
its first `min(maxBubbles, len)` entries, and two lists with the same first
`maxBubbles` entries give the same bubbles (radius, colour and position). -/
theorem C16_depends_only_on_top (M : MathFns K) (processes : List (ProcessInfo K))
    (sortMode : String) (maxBubbles width height : Int) (hmax : 0 ≤ maxBubbles) :
    packBubbles M processes sortMode maxBubbles width height =
        packBubbles M (processes.take (min maxBubbles (processes.length : Int)).toNat)
          sortMode maxBubbles width height ∧
      ∀ other : List (ProcessInfo K),
        other.take maxBubbles.toNat = processes.take maxBubbles.toNat →
        packBubbles M other sortMode maxBubbles width height =
          packBubbles M processes sortMode maxBubbles width height := by
  constructor
  · have hmin : processes.take (min maxBubbles (processes.length : Int)).toNat =
        processes.take maxBubbles.toNat := by
      rcases le_total maxBubbles (processes.length : Int) with h | h
      · rw [min_eq_left h]
      · rw [min_eq_right h, Int.toNat_ofNat, List.take_of_length_le (le_refl _),
          List.take_of_length_le]
        omega
    rw [hmin]
    exact packBubbles_take M processes sortMode maxBubbles width height hmax
  · intro other hother
    rw [packBubbles_take M other sortMode maxBubbles width height hmax, hother,
      ← packBubbles_take M processes sortMode maxBubbles width height hmax]

/-- C17: for a non-empty process list and `maxBubbles ≥ 1`, the output of
`packBubbles` is non-empty and its first bubble carries the first input process
and lies at the canvas centre `(width/2, height/2)`. -/
theorem C17_first_bubble_at_centre (M : MathFns K) (processes : List (ProcessInfo K))
    (sortMode : String) (maxBubbles width height : Int) (hne : processes ≠ [])
    (hmax : 1 ≤ maxBubbles) :
    ∃ b rest, packBubbles M processes sortMode maxBubbles width height = some (b :: rest) ∧
      processes.head? = some b.Process ∧ b.X = (width : K) / 2 ∧ b.Y = (height : K) / 2 := by
  cases processes with
  | nil => exact absurd rfl hne
  | cons p ps =>
    have hc : ¬ (if maxBubbles > (((p :: ps).length : Nat) : Int) then
        (((p :: ps).length : Nat) : Int) else maxBubbles) < 0 := by
      split_ifs <;> omega
    obtain ⟨n, hn⟩ : ∃ n, maxBubbles.toNat = n + 1 := ⟨maxBubbles.toNat - 1, by omega⟩
    have hne0 : ¬ (p :: ps).length = 0 := by simp
    unfold packBubbles
    simp only [if_neg hne0, if_neg hc, take_count_eq, hn, List.take_succ_cons]
    cases hb : sizedBubbles M (p :: List.take n ps) sortMode width height with
    | nil =>
      rw [sizedBubbles_eq_map] at hb
      simp at hb
    | cons b0 rest =>
      rw [sizedBubbles_eq_map, List.map_cons, List.cons.injEq] at hb
      obtain ⟨added, heq, -, -, -⟩ := placeRemaining_spec M ((width : K) / 2)
        ((height : K) / 2) b0.Radius width height rest
        [{ b0 with X := (width : K) / 2, Y := (height : K) / 2 }]
      refine ⟨{ b0 with X := (width : K) / 2, Y := (height : K) / 2 }, added, ?_, ?_, rfl, rfl⟩
      · exact congrArg some heq
      · simp only [List.head?_cons, ← hb.1]

end TopN

/-- C16 (witness): `C16_depends_only_on_top` at the three scenario processes with
`maxBubbles = 2` on a 40 by 20 canvas. -/
theorem C16_depends_only_on_top_witness :
    (0 : Int) ≤ 2 ∧
    (packBubbles (⟨Real.sqrt, Real.cos, Real.sin⟩ : MathFns ℝ) scenarioProcs "cpu" 2 40 20 =
        packBubbles (⟨Real.sqrt, Real.cos, Real.sin⟩ : MathFns ℝ)
          ((scenarioProcs : List (ProcessInfo ℝ)).take
            (min 2 ((scenarioProcs : List (ProcessInfo ℝ)).length : Int)).toNat)
          "cpu" 2 40 20 ∧
      ∀ other : List (ProcessInfo ℝ),
        other.take (2 : Int).toNat = (scenarioProcs : List (ProcessInfo ℝ)).take (2 : Int).toNat →
        packBubbles (⟨Real.sqrt, Real.cos, Real.sin⟩ : MathFns ℝ) other "cpu" 2 40 20 =
          packBubbles (⟨Real.sqrt, Real.cos, Real.sin⟩ : MathFns ℝ) scenarioProcs "cpu" 2 40 20) :=
  ⟨by decide, C16_depends_only_on_top _ _ _ _ _ _ (by decide)⟩

/-- C17 (witness): `C17_first_bubble_at_centre` at the three scenario processes
with `maxBubbles = 3` on a 40 by 20 canvas. -/
theorem C17_first_bubble_at_centre_witness :
    (scenarioProcs : List (ProcessInfo ℝ)) ≠ [] ∧ (1 : Int) ≤ 3 ∧
    ∃ b rest, packBubbles (⟨Real.sqrt, Real.cos, Real.sin⟩ : MathFns ℝ)
        scenarioProcs "cpu" 3 40 20 = some (b :: rest) ∧
      (scenarioProcs : List (ProcessInfo ℝ)).head? = some b.Process ∧
      b.X = ((40 : Int) : ℝ) / 2 ∧ b.Y = ((20 : Int) : ℝ) / 2 :=
  ⟨by simp [scenarioProcs], by decide,
    C17_first_bubble_at_centre _ _ _ _ _ _ (by simp [scenarioProcs]) (by decide)⟩

theorem rangeString_length_le (k : Nat) (s : List UInt8) : (rangeString k s).length ≤ s.length := by
  induction k, s using rangeString.induct with
  | case1 k => simp [rangeString]
  | case2 k b0 rest ih =>
    rw [rangeString]
    simp only [List.length_cons, List.length_drop] at ih ⊢
    omega

/-- C20: for `maxLen ≥ 3`, `truncate(s, maxLen)` returns `s` unchanged when
`len(s) ≤ maxLen` and otherwise the first `maxLen - 3` bytes of `s` followed by
three dots; the result has at most `maxLen` bytes, hence at most `maxLen`
characters, so the name part of a bubble label has at most 12. -/
theorem C20_truncate (s : List UInt8) (maxLen : Int) (hmax : 3 ≤ maxLen) :
    ∃ t, truncate s maxLen = some t ∧
      ((s.length : Int) ≤ maxLen → t = s) ∧
      (maxLen < (s.length : Int) → t = s.take (maxLen - 3).toNat ++ goBytes "...") ∧
      (t.length : Int) ≤ maxLen ∧ ((rangeString 0 t).length : Int) ≤ maxLen ∧
      ∃ name, truncate s 12 = some name ∧ name.length ≤ 12 ∧ (rangeString 0 name).length ≤ 12 := by
  have hdots : (goBytes "...").length = 3 := by decide
  have key : ∀ n : Int, 3 ≤ n → ∃ t, truncate s n = some t ∧
      ((s.length : Int) ≤ n → t = s) ∧
      (n < (s.length : Int) → t = s.take (n - 3).toNat ++ goBytes "...") ∧
      (t.length : Int) ≤ n := by
    intro n hn
    unfold truncate
    by_cases h : (s.length : Int) ≤ n
    · exact ⟨s, by rw [if_pos h], fun _ => rfl, fun h2 => by omega, h⟩
    · refine ⟨s.take (n - 3).toNat ++ goBytes "...", ?_, fun h2 => absurd h2 h, fun _ => rfl, ?_⟩
      · rw [if_neg h, if_neg (by omega)]
      · rw [List.length_append, List.length_take, hdots]
        omega
  obtain ⟨t, ht, h1, h2, h3⟩ := key maxLen hmax
  obtain ⟨name, hn, -, -, h4⟩ := key 12 (by decide)
  have h5 := rangeString_length_le 0 t
  have h6 := rangeString_length_le 0 name
  exact ⟨t, ht, h1, h2, h3, by omega, name, hn, by omega, by omega⟩

/-- C20 (witness): `truncate` with `maxLen = 12` on the 16 bytes of the name
`systemd-journald`. -/
theorem C20_truncate_witness :
    (3 : Int) ≤ 12 ∧
    ∃ t, truncate (goBytes "systemd-journald") 12 = some t ∧
      ((((goBytes "systemd-journald").length : Nat) : Int) ≤ 12 →
        t = goBytes "systemd-journald") ∧
      ((12 : Int) < (((goBytes "systemd-journald").length : Nat) : Int) →
        t = (goBytes "systemd-journald").take ((12 : Int) - 3).toNat ++ goBytes "...") ∧
      (t.length : Int) ≤ 12 ∧ ((rangeString 0 t).length : Int) ≤ 12 ∧
      ∃ name, truncate (goBytes "systemd-journald") 12 = some name ∧ name.length ≤ 12 ∧
        (rangeString 0 name).length ≤ 12 :=
  ⟨by decide, C20_truncate _ 12 (by decide)⟩

section LoopInvariants

variable {K : Type} [LinearOrderedField K] [FloorRing K]

theorem sortProcesses_maxBubbles (U : UiFns K) (m : model K) :
    (sortProcesses U m).maxBubbles = m.maxBubbles := by
  unfold sortProcesses
  split_ifs <;> rfl

theorem sortProcesses_sortMode (U : UiFns K) (m : model K) :
    (sortProcesses U m).sortMode = m.sortMode := by
  unfold sortProcesses
  split_ifs <;> rfl

theorem sortProcesses_frame (U : UiFns K) (m : model K) :
    (sortProcesses U m).width = m.width ∧ (sortProcesses U m).height = m.height ∧
      (sortProcesses U m).cursor = m.cursor := by
  unfold sortProcesses
  split_ifs <;> exact ⟨rfl, rfl, rfl⟩

theorem wrapInt_of_range (n : Int) (hlo : minInt ≤ n) (hhi : n ≤ maxInt) : wrapInt n = n := by
  unfold wrapInt
  unfold minInt at hlo
  unfold maxInt at hhi
  omega

theorem wrapInt_add (a b : Int) : wrapInt (wrapInt a + b) = wrapInt (a + b) := by
  unfold wrapInt
  omega

theorem Update_maxBubbles (U : UiFns K) (m : model K) (msg : Msg K) :
    (Update U m msg).1.maxBubbles =
      match msg with
      | Msg.KeyMsg key =>
        if key = "+" ∨ key = "=" then wrapInt (m.maxBubbles + 10)
        else if key = "-" ∨ key = "_" then
          (if m.maxBubbles > 10 then wrapInt (m.maxBubbles - 10) else m.maxBubbles)
        else m.maxBubbles
      | _ => m.maxBubbles := by
  cases msg with
  | KeyMsg key =>
    simp only [Update, updateKey]
    by_cases h1 : key = "+" ∨ key = "="
    · rcases h1 with rfl | rfl <;> simp
    · by_cases h2 : key = "-" ∨ key = "_"
      · rcases h2 with rfl | rfl <;> simp <;> split_ifs <;> rfl
      · simp only [if_neg h1, if_neg h2]
        split_ifs <;> simp [sortProcesses_maxBubbles]
  | WindowSizeMsg w h => rfl
  | tickMsg => rfl
  | processesMsg procs =>
    simp only [Update]
    split_ifs <;> simp [sortProcesses_maxBubbles]
  | errMsg e => rfl
  | other => rfl

theorem Update_maxBubbles_step (U : UiFns K) (m : model K) (msg : Msg K)
    (h : 10 ≤ m.maxBubbles ∧ m.maxBubbles % 10 = 0)
    (hroom : m.maxBubbles + 10 * (if isPlusKey msg = true then 1 else 0) ≤ maxInt) :
    (10 ≤ (Update U m msg).1.maxBubbles ∧ (Update U m msg).1.maxBubbles % 10 = 0) ∧
      (Update U m msg).1.maxBubbles ≤
        m.maxBubbles + 10 * (if isPlusKey msg = true then 1 else 0) := by
  rw [Update_maxBubbles]
  unfold maxInt at hroom
  cases msg with
  | KeyMsg key =>
    by_cases h1 : key = "+" ∨ key = "="
    · have hp : isPlusKey (Msg.KeyMsg key : Msg K) = true := by
        simp only [isPlusKey, decide_eq_true h1]
      rw [hp, if_pos rfl] at hroom
      simp only [hp, if_pos h1, if_true]
      rw [wrapInt_of_range _ (by unfold minInt; omega) (by unfold maxInt; omega)]
      omega
    · have hp : isPlusKey (Msg.KeyMsg key : Msg K) = false := by
        simp only [isPlusKey, decide_eq_false h1]
      simp only [hp, if_neg h1, Bool.false_eq_true, if_false]
      split_ifs
      · rw [wrapInt_of_range _ (by unfold minInt; omega) (by unfold maxInt; omega)]
        omega
      · omega
      · omega
  | WindowSizeMsg w h1 => simp only [isPlusKey]; omega
  | tickMsg => simp only [isPlusKey]; omega
  | processesMsg procs => simp only [isPlusKey]; omega
  | errMsg e => simp only [isPlusKey]; omega
  | other => simp only [isPlusKey]; omega

theorem foldl_maxBubbles_floor (U : UiFns K) (msgs : List (Msg K)) (m : model K)
    (h : 10 ≤ m.maxBubbles ∧ m.maxBubbles % 10 = 0)
    (hroom : m.maxBubbles + 10 * (plusKeys msgs : Int) ≤ maxInt) :
    10 ≤ (msgs.foldl (fun m msg => (Update U m msg).1) m).maxBubbles ∧
      (msgs.foldl (fun m msg => (Update U m msg).1) m).maxBubbles ≤
        m.maxBubbles + 10 * (plusKeys msgs : Int) := by
  induction msgs generalizing m with
  | nil => exact ⟨h.1, by simp [plusKeys]⟩
  | cons msg rest ih =>
    have hcount : (plusKeys (msg :: rest) : Int) =
        (plusKeys rest : Int) + (if isPlusKey msg = true then 1 else 0) := by
      unfold plusKeys
      rw [List.countP_cons]
      split_ifs <;> simp
    rw [hcount] at hroom ⊢
    have hk : (0 : Int) ≤ (plusKeys rest : Int) := Int.ofNat_nonneg _
    have hb : (0 : Int) ≤ (if isPlusKey msg = true then 1 else 0) := by
      split_ifs <;> decide
    obtain ⟨hinv, hle⟩ := Update_maxBubbles_step U m msg h (by omega)
    obtain ⟨h1, h2⟩ := ih (Update U m msg).1 hinv (by omega)
    rw [List.foldl_cons]
    exact ⟨h1, by omega⟩

theorem wrapInt_idem (a : Int) : wrapInt (wrapInt a) = wrapInt a := by
  unfold wrapInt
  omega

theorem foldl_replicate_plus (U : UiFns K) (n : Nat) (m : model K)
    (hm : wrapInt m.maxBubbles = m.maxBubbles) :
    ((List.replicate n (Msg.KeyMsg "+")).foldl (fun m msg => (Update U m msg).1) m).maxBubbles =
      wrapInt (m.maxBubbles + 10 * (n : Int)) := by
  induction n generalizing m with
  | zero => simp [hm]
  | succ n ih =>
    have hstep : (Update U m (Msg.KeyMsg "+")).1.maxBubbles = wrapInt (m.maxBubbles + 10) := by
      rw [Update_maxBubbles]
      simp
    have hidem : wrapInt (Update U m (Msg.KeyMsg "+")).1.maxBubbles =
        (Update U m (Msg.KeyMsg "+")).1.maxBubbles := by
      rw [hstep, wrapInt_idem]
    rw [List.replicate_succ, List.foldl_cons, ih _ hidem, hstep, wrapInt_add]
    congr 1
    push_cast
    ring

/-- C14 (as amended): `NewModel` starts with `maxBubbles = 20`; a key `+` or `=`
adds 10 in Go's wrapping `int` arithmetic, which is exactly 10 as long as the
sum does not exceed the largest `int`; a key `-` or `_` subtracts exactly 10
when `maxBubbles > 10` and leaves it unchanged otherwise; no other message
changes it; and in every state reached from `NewModel` by a message sequence
with so few keys `+` and `=` that `20 + 10 * plusKeys` does not exceed the
largest `int`, `10 ≤ maxBubbles ≤ 20 + 10 * plusKeys`. -/
theorem C14_maxBubbles_floor (U : UiFns K) (msgs : List (Msg K)) (m : model K) (msg : Msg K)
    (hroom : 20 + 10 * (plusKeys msgs : Int) ≤ maxInt) :
    (NewModel : model K).maxBubbles = 20 ∧
    10 ≤ (runUpdates U msgs).maxBubbles ∧
    (runUpdates U msgs).maxBubbles ≤ 20 + 10 * (plusKeys msgs : Int) ∧
    (Update U m msg).1.maxBubbles =
      (match msg with
      | Msg.KeyMsg key =>
        if key = "+" ∨ key = "=" then wrapInt (m.maxBubbles + 10)
        else if key = "-" ∨ key = "_" then
          (if m.maxBubbles > 10 then wrapInt (m.maxBubbles - 10) else m.maxBubbles)
        else m.maxBubbles
      | _ => m.maxBubbles) ∧
    (minInt ≤ m.maxBubbles → m.maxBubbles + 10 ≤ maxInt →
      wrapInt (m.maxBubbles + 10) = m.maxBubbles + 10) ∧
    (10 < m.maxBubbles → m.maxBubbles ≤ maxInt →
      wrapInt (m.maxBubbles - 10) = m.maxBubbles - 10) := by
  obtain ⟨h1, h2⟩ := foldl_maxBubbles_floor U msgs NewModel
    ⟨by simp [NewModel], by simp [NewModel]⟩ hroom
  refine ⟨rfl, h1, h2, Update_maxBubbles U m msg, ?_, ?_⟩
  · intro hlo hhi
    exact wrapInt_of_range _ (by unfold minInt at hlo ⊢; omega) hhi
  · intro hlo hhi
    exact wrapInt_of_range _ (by unfold minInt; omega) (by unfold maxInt at hhi ⊢; omega)

end LoopInvariants

/-- C14 (witness): `C14_maxBubbles_floor` for the plain terminal library after the
keys `+`, `-`, `-`, `-`, and for one more key `+` from the initial model. -/
theorem C14_maxBubbles_floor_witness :
    20 + 10 * ((plusKeys ([Msg.KeyMsg "+", Msg.KeyMsg "-", Msg.KeyMsg "-", Msg.KeyMsg "-"] :
      List (Msg ℝ)) : Nat) : Int) ≤ maxInt ∧
    10 ≤ (runUpdates (plainUi : UiFns ℝ)
      [Msg.KeyMsg "+", Msg.KeyMsg "-", Msg.KeyMsg "-", Msg.KeyMsg "-"]).maxBubbles ∧
    (runUpdates (plainUi : UiFns ℝ)
      [Msg.KeyMsg "+", Msg.KeyMsg "-", Msg.KeyMsg "-", Msg.KeyMsg "-"]).maxBubbles ≤
      20 + 10 * ((plusKeys ([Msg.KeyMsg "+", Msg.KeyMsg "-", Msg.KeyMsg "-", Msg.KeyMsg "-"] :
        List (Msg ℝ)) : Nat) : Int) :=
  have hroom : 20 + 10 * ((plusKeys ([Msg.KeyMsg "+", Msg.KeyMsg "-", Msg.KeyMsg "-",
      Msg.KeyMsg "-"] : List (Msg ℝ)) : Nat) : Int) ≤ maxInt := by
    decide
  have h := C14_maxBubbles_floor (plainUi : UiFns ℝ)
    [Msg.KeyMsg "+", Msg.KeyMsg "-", Msg.KeyMsg "-", Msg.KeyMsg "-"] NewModel (Msg.KeyMsg "+")
    hroom
  ⟨hroom, h.2.1, h.2.2.1⟩

/-- C14 (counterexample): after 922337203685477579 keys `+` from `NewModel()` the
exact sum `20 + 10 * 922337203685477579` exceeds the largest `int` by 3, so the
last `+=` wraps around and `maxBubbles` is `-9223372036854775806`, below 10. -/
theorem C14_counterexample :
    (runUpdates (plainUi : UiFns ℝ)
        (List.replicate 922337203685477579 (Msg.KeyMsg "+"))).maxBubbles =
      -9223372036854775806 ∧
    ¬ ((10 : Int) ≤ -9223372036854775806) := by
  refine ⟨?_, by decide⟩
  unfold runUpdates
  rw [foldl_replicate_plus (plainUi : UiFns ℝ) 922337203685477579 NewModel (by decide)]
  decide

section SortInvariants

variable {K : Type} [LinearOrderedField K] [FloorRing K]

theorem sortSlice_by_key {α : Type} [LinearOrder α]
    (sortSlice : (ProcessInfo K → ProcessInfo K → Bool) → List (ProcessInfo K) →
      List (ProcessInfo K)) (hU : SortContract sortSlice) (key : ProcessInfo K → α)
    (l : List (ProcessInfo K)) :
    (sortSlice (fun a b => decide (key a > key b)) l).Perm l ∧
      (sortSlice (fun a b => decide (key a > key b)) l).Pairwise fun a b => key b ≤ key a := by
  obtain ⟨hperm, hsorted⟩ := hU (fun a b => decide (key a > key b)) l
  refine ⟨hperm, ?_⟩
  have h := hsorted (by simp)
    (by
      intro a b c hab hbc
      simp only [decide_eq_true_eq, gt_iff_lt] at hab hbc ⊢
      exact lt_trans hbc hab)
    (by
      intro a b c hab hbc
      simp only [decide_eq_false_iff_not, gt_iff_lt, not_lt] at hab hbc ⊢
      exact le_trans hab hbc)
  refine h.imp ?_
  intro a b hba
  simpa using hba

theorem getValue_cpu (p : ProcessInfo K) : getValue p "cpu" = p.CPUPercent := by
  simp [getValue]

theorem getValue_memory (p : ProcessInfo K) : getValue p "memory" = p.MemPercent := by
  simp [getValue]

theorem getValue_threads (p : ProcessInfo K) : getValue p "threads" = (p.NumThreads : K) := by
  simp [getValue]

theorem sortProcesses_spec (U : UiFns K) (hU : SortContract U.sortSlice) (m : model K)
    (hmode : m.sortMode = "cpu" ∨ m.sortMode = "memory" ∨ m.sortMode = "threads") :
    sortedDescending (sortProcesses U m).processes m.sortMode ∧
      (sortProcesses U m).processes.Perm m.processes := by
  unfold sortProcesses sortedDescending
  rcases hmode with h | h | h
  · obtain ⟨hp, hs⟩ := sortSlice_by_key U.sortSlice hU (fun p => p.CPUPercent) m.processes
    simp only [h, if_true]
    exact ⟨hs.imp fun {a b} hab => by rw [getValue_cpu, getValue_cpu]; exact hab, hp⟩
  · obtain ⟨hp, hs⟩ := sortSlice_by_key U.sortSlice hU (fun p => p.MemPercent) m.processes
    simp only [h, if_true, show ¬ ("memory" = "cpu") by decide, if_false]
    exact ⟨hs.imp fun {a b} hab => by rw [getValue_memory, getValue_memory]; exact hab, hp⟩
  · obtain ⟨hp, hs⟩ := sortSlice_by_key U.sortSlice hU (fun p => p.NumThreads) m.processes
    simp only [h, if_true, show ¬ ("threads" = "cpu") by decide,
      show ¬ ("threads" = "memory") by decide, if_false]
    exact ⟨hs.imp fun {a b} hab => by
      rw [getValue_threads, getValue_threads]
      exact_mod_cast hab, hp⟩

/-- The invariant of the refresh loop: the sort mode is one of the three
metrics, the batch is ordered descending by it, and the batch is a permutation
of `last`. -/
theorem Update_invariant (U : UiFns K) (hU : SortContract U.sortSlice) (m : model K)
    (last : List (ProcessInfo K)) (msg : Msg K)
    (hmode : m.sortMode = "cpu" ∨ m.sortMode = "memory" ∨ m.sortMode = "threads")
    (hsorted : sortedDescending m.processes m.sortMode) (hperm : m.processes.Perm last) :
    ((Update U m msg).1.sortMode = "cpu" ∨ (Update U m msg).1.sortMode = "memory" ∨
        (Update U m msg).1.sortMode = "threads") ∧
      sortedDescending (Update U m msg).1.processes (Update U m msg).1.sortMode ∧
      (Update U m msg).1.processes.Perm
        (match msg with
          | Msg.processesMsg procs => procs
          | _ => last) := by
  have hkey : ∀ mode : String, (mode = "cpu" ∨ mode = "memory" ∨ mode = "threads") →
      ((sortProcesses U { m with sortMode := mode }).sortMode = "cpu" ∨
        (sortProcesses U { m with sortMode := mode }).sortMode = "memory" ∨
        (sortProcesses U { m with sortMode := mode }).sortMode = "threads") ∧
      sortedDescending (sortProcesses U { m with sortMode := mode }).processes
        (sortProcesses U { m with sortMode := mode }).sortMode ∧
      (sortProcesses U { m with sortMode := mode }).processes.Perm last := by
    intro mode hm
    obtain ⟨hs, hp⟩ := sortProcesses_spec U hU { m with sortMode := mode } hm
    rw [sortProcesses_sortMode]
    exact ⟨hm, hs, hp.trans hperm⟩
  cases msg with
  | KeyMsg key =>
    simp only [Update, updateKey]
    split_ifs
    · exact ⟨hmode, hsorted, hperm⟩
    · exact hkey "cpu" (Or.inl rfl)
    · exact hkey "memory" (Or.inr (Or.inl rfl))
    · exact hkey "threads" (Or.inr (Or.inr rfl))
    · exact ⟨hmode, hsorted, hperm⟩
    · exact ⟨hmode, hsorted, hperm⟩
    · exact ⟨hmode, hsorted, hperm⟩
    · exact ⟨hmode, hsorted, hperm⟩
  | WindowSizeMsg w h => exact ⟨hmode, hsorted, hperm⟩
  | tickMsg => exact ⟨hmode, hsorted, hperm⟩
  | processesMsg procs =>
    obtain ⟨hs, hp⟩ := sortProcesses_spec U hU { m with processes := procs } hmode
    have hm2 := sortProcesses_sortMode U { m with processes := procs }
    simp only [Update]
    split_ifs <;> simp only [hm2] <;> exact ⟨hmode, hs, hp⟩
  | errMsg e => exact ⟨hmode, hsorted, hperm⟩
  | other => exact ⟨hmode, hsorted, hperm⟩

theorem foldl_invariant (U : UiFns K) (hU : SortContract U.sortSlice) (msgs : List (Msg K))
    (m : model K) (last : List (ProcessInfo K))
    (hmode : m.sortMode = "cpu" ∨ m.sortMode = "memory" ∨ m.sortMode = "threads")
    (hsorted : sortedDescending m.processes m.sortMode) (hperm : m.processes.Perm last) :
    ((msgs.foldl (fun m msg => (Update U m msg).1) m).sortMode = "cpu" ∨
        (msgs.foldl (fun m msg => (Update U m msg).1) m).sortMode = "memory" ∨
        (msgs.foldl (fun m msg => (Update U m msg).1) m).sortMode = "threads") ∧
      sortedDescending (msgs.foldl (fun m msg => (Update U m msg).1) m).processes
        (msgs.foldl (fun m msg => (Update U m msg).1) m).sortMode ∧
      (msgs.foldl (fun m msg => (Update U m msg).1) m).processes.Perm
        (msgs.foldl (fun last msg =>
          match msg with
          | Msg.processesMsg procs => procs
          | _ => last) last) := by
  induction msgs generalizing m last with
  | nil => exact ⟨hmode, hsorted, hperm⟩
  | cons msg rest ih =>
    obtain ⟨h1, h2, h3⟩ := Update_invariant U hU m last msg hmode hsorted hperm
    exact ih _ _ h1 h2 h3

/-- C13: for a `sort.Slice` that meets its contract, in every state reached
from `NewModel()` by any sequence of `Update` messages the sort mode is one of
`cpu`, `memory`, `threads`, the stored batch is ordered descending by the metric
of the active sort mode, and it is a permutation of the most recently received
`processesMsg` batch (of the empty batch when none was received). -/
theorem C13_sorted_invariant (U : UiFns K) (msgs : List (Msg K))
    (hU : SortContract U.sortSlice) :
    ((runUpdates U msgs).sortMode = "cpu" ∨ (runUpdates U msgs).sortMode = "memory" ∨
        (runUpdates U msgs).sortMode = "threads") ∧
      sortedDescending (runUpdates U msgs).processes (runUpdates U msgs).sortMode ∧
      (runUpdates U msgs).processes.Perm (lastBatch msgs) :=
  foldl_invariant U hU msgs NewModel [] (Or.inl rfl) List.Pairwise.nil (List.Perm.refl _)

/-- C15: for a `sort.Slice` that meets its contract, from a model with
`maxBubbles = 20` holding any batch, the keys `m`, `+`, `+` lead to a state with
sort mode `memory`, `maxBubbles = 40` and the batch a permutation of the
original ordered by memory percentage descending; width, height and the
recorded error are unchanged. -/
theorem C15_memory_then_plus_twice (U : UiFns K) (m : model K)
    (hU : SortContract U.sortSlice) (hmax : m.maxBubbles = 20) :
    (Update U (Update U (Update U m (Msg.KeyMsg "m")).1 (Msg.KeyMsg "+")).1
        (Msg.KeyMsg "+")).1.sortMode = "memory" ∧
    (Update U (Update U (Update U m (Msg.KeyMsg "m")).1 (Msg.KeyMsg "+")).1
        (Msg.KeyMsg "+")).1.maxBubbles = 40 ∧
    (Update U (Update U (Update U m (Msg.KeyMsg "m")).1 (Msg.KeyMsg "+")).1
        (Msg.KeyMsg "+")).1.processes.Perm m.processes ∧
    ((Update U (Update U (Update U m (Msg.KeyMsg "m")).1 (Msg.KeyMsg "+")).1
        (Msg.KeyMsg "+")).1.processes.Pairwise fun a b => b.MemPercent ≤ a.MemPercent) ∧
    (Update U (Update U (Update U m (Msg.KeyMsg "m")).1 (Msg.KeyMsg "+")).1
        (Msg.KeyMsg "+")).1.width = m.width ∧
    (Update U (Update U (Update U m (Msg.KeyMsg "m")).1 (Msg.KeyMsg "+")).1
        (Msg.KeyMsg "+")).1.height = m.height ∧
    (Update U (Update U (Update U m (Msg.KeyMsg "m")).1 (Msg.KeyMsg "+")).1
        (Msg.KeyMsg "+")).1.err = m.err := by
  have h1 : (Update U m (Msg.KeyMsg "m")).1 = sortProcesses U { m with sortMode := "memory" } := by
    simp [Update, updateKey]
  have h2 : ∀ m1 : model K, (Update U m1 (Msg.KeyMsg "+")).1 =
      { m1 with maxBubbles := wrapInt (m1.maxBubbles + 10) } := by
    intro m1
    simp [Update, updateKey]
  obtain ⟨hs, hp⟩ := sortProcesses_spec U hU { m with sortMode := "memory" }
    (Or.inr (Or.inl rfl))
  obtain ⟨hw, hh, -⟩ := sortProcesses_frame U { m with sortMode := "memory" }
  rw [h2, h2, h1]
  refine ⟨?_, ?_, hp, ?_, hw, hh, ?_⟩
  · exact sortProcesses_sortMode U _
  · simp only [sortProcesses_maxBubbles, hmax]
    decide
  · exact hs.imp fun {a b} hab => by
      rw [getValue_memory, getValue_memory] at hab
      exact hab
  · exact sortProcesses_err U _


theorem plainUi_sortContract : SortContract (plainUi : UiFns K).sortSlice := by
  intro less l
  refine ⟨List.mergeSort_perm l _, ?_⟩
  intro hirr htrans hneg
  have h := @List.sorted_mergeSort _ (fun a b => !less b a)
    (by
      intro a b c hab hbc
      simp only [Bool.not_eq_true'] at hab hbc ⊢
      exact hneg c b a hbc hab)
    (by
      intro a b
      simp only [Bool.or_eq_true, Bool.not_eq_true']
      by_contra hcon
      push_neg at hcon
      simp only [ne_eq, Bool.not_eq_false] at hcon
      have := htrans a b a hcon.2 hcon.1
      rw [hirr a] at this
      exact Bool.false_ne_true this) l
  exact h.imp fun {a b} hab => by simpa using hab

end SortInvariants

/-- C13 (witness): `C13_sorted_invariant` for the plain terminal library, whose
sort meets the contract, after a fetch of the three scenario processes and the
key `m`. -/
theorem C13_sorted_invariant_witness :
    SortContract (plainUi : UiFns ℝ).sortSlice ∧
    (((runUpdates plainUi [Msg.processesMsg scenarioProcs, Msg.KeyMsg "m"] :
          model ℝ).sortMode = "cpu" ∨
        (runUpdates plainUi [Msg.processesMsg scenarioProcs, Msg.KeyMsg "m"] :
          model ℝ).sortMode = "memory" ∨
        (runUpdates plainUi [Msg.processesMsg scenarioProcs, Msg.KeyMsg "m"] :
          model ℝ).sortMode = "threads") ∧
      sortedDescending
        (runUpdates plainUi [Msg.processesMsg scenarioProcs, Msg.KeyMsg "m"] :
          model ℝ).processes
        (runUpdates plainUi [Msg.processesMsg scenarioProcs, Msg.KeyMsg "m"] :
          model ℝ).sortMode ∧
      (runUpdates plainUi [Msg.processesMsg scenarioProcs, Msg.KeyMsg "m"] :
          model ℝ).processes.Perm
        (lastBatch [Msg.processesMsg scenarioProcs, Msg.KeyMsg "m"])) :=
  ⟨plainUi_sortContract, C13_sorted_invariant plainUi _ plainUi_sortContract⟩

/-- C15 (witness): `C15_memory_then_plus_twice` for the plain terminal library
and the initial model holding the three scenario processes. -/
theorem C15_memory_then_plus_twice_witness :
    SortContract (plainUi : UiFns ℝ).sortSlice ∧
    ({ (NewModel : model ℝ) with processes := scenarioProcs } : model ℝ).maxBubbles = 20 ∧
    (Update plainUi (Update plainUi (Update plainUi
        ({ (NewModel : model ℝ) with processes := scenarioProcs } : model ℝ)
        (Msg.KeyMsg "m")).1 (Msg.KeyMsg "+")).1 (Msg.KeyMsg "+")).1.sortMode = "memory" ∧
    (Update plainUi (Update plainUi (Update plainUi
        ({ (NewModel : model ℝ) with processes := scenarioProcs } : model ℝ)
        (Msg.KeyMsg "m")).1 (Msg.KeyMsg "+")).1 (Msg.KeyMsg "+")).1.maxBubbles = 40 :=
  have h := C15_memory_then_plus_twice plainUi
    ({ (NewModel : model ℝ) with processes := scenarioProcs } : model ℝ)
    plainUi_sortContract rfl
  ⟨plainUi_sortContract, rfl, h.1, h.2.1⟩

section RadiusOrder

variable {K : Type} [LinearOrderedField K] [FloorRing K]

theorem minMax_foldl_bounds (l : List (ProcessInfo K)) (sortMode : String) (acc : K × K) :
    acc.1 ≤ (l.foldl (minMaxStep sortMode) acc).1 ∧
      (l.foldl (minMaxStep sortMode) acc).2 ≤ acc.2 ∧
      ∀ p ∈ l, (l.foldl (minMaxStep sortMode) acc).2 ≤ getValue p sortMode ∧
        getValue p sortMode ≤ (l.foldl (minMaxStep sortMode) acc).1 := by
  induction l generalizing acc with
  | nil => simp
  | cons q rest ih =>
    obtain ⟨h1, h2, h3⟩ := ih (minMaxStep sortMode acc q)
    have hs1 : acc.1 ≤ (minMaxStep sortMode acc q).1 ∧
        getValue q sortMode ≤ (minMaxStep sortMode acc q).1 := by
      simp only [minMaxStep]
      split_ifs with h
      · exact ⟨le_of_lt h, le_refl _⟩
      · exact ⟨le_refl _, not_lt.mp h⟩
    have hs2 : (minMaxStep sortMode acc q).2 ≤ acc.2 ∧
        (minMaxStep sortMode acc q).2 ≤ getValue q sortMode := by
      simp only [minMaxStep]
      split_ifs with h
      · exact ⟨le_of_lt h, le_refl _⟩
      · exact ⟨le_refl _, not_lt.mp h⟩
    rw [List.foldl_cons]
    refine ⟨le_trans hs1.1 h1, le_trans h2 hs2.1, ?_⟩
    intro p hp
    rcases List.mem_cons.mp hp with rfl | hp
    · exact ⟨le_trans h2 hs2.2, le_trans hs1.2 h1⟩
    · exact h3 p hp

theorem minMax_bounds (l : List (ProcessInfo K)) (sortMode : String) (p : ProcessInfo K)
    (hp : p ∈ l) :
    (minMax l sortMode).2 ≤ getValue p sortMode ∧ getValue p sortMode ≤ (minMax l sortMode).1 :=
  (minMax_foldl_bounds l sortMode (0, MaxFloat64)).2.2 p hp

theorem calculateBubbleSize_mono (M : MathFns K) (v1 v2 maxValue minValue : K)
    (width height : Int)
    (hmono : ∀ s t : K, 0 ≤ s → s ≤ t → t ≤ 1 → M.Sqrt s ≤ M.Sqrt t)
    (hw : 16 ≤ width) (hh : 12 ≤ height) (h1 : minValue ≤ v1) (h12 : v1 ≤ v2)
    (h2 : v2 ≤ maxValue) :
    calculateBubbleSize M v1 maxValue minValue width height ≤
      calculateBubbleSize M v2 maxValue minValue width height := by
  unfold calculateBubbleSize
  split_ifs with heq
  · exact le_refl _
  · have hlt : minValue < maxValue :=
      lt_of_le_of_ne (le_trans h1 (le_trans h12 h2)) (Ne.symm heq)
    have hd : 0 < maxValue - minValue := sub_pos.mpr hlt
    have hs := hmono ((v1 - minValue) / (maxValue - minValue))
      ((v2 - minValue) / (maxValue - minValue))
      (div_nonneg (sub_nonneg.mpr h1) hd.le)
      (div_le_div_of_nonneg_right (by linarith) hd.le)
      (by rw [div_le_one hd]; linarith)
    have hwK : (16 : K) ≤ (width : K) := by exact_mod_cast hw
    have hhK : (12 : K) ≤ (height : K) := by exact_mod_cast hh
    have hR : (2 : K) ≤ min ((width : K) / 8) ((height : K) / 6) := by
      apply le_min
      · rw [le_div_iff₀ (by norm_num)]
        linarith
      · rw [le_div_iff₀ (by norm_num)]
        linarith
    simp only
    nlinarith

/-- Where `maxRadius = min(width/8, height/6)` is at least `minRadius = 2`, that
is on a canvas with `width ≥ 16` and `height ≥ 12`, for a monotone square root
and a process list sorted descending by the active metric, the radii of the
output of `packBubbles` are non-increasing in rank; in particular the first
bubble, at the centre, has a radius at least that of every other output
bubble. -/
theorem radii_nonincreasing_on_large_canvas (M : MathFns K) (processes : List (ProcessInfo K))
    (sortMode : String) (maxBubbles width height : Int)
    (hmono : ∀ s t : K, 0 ≤ s → s ≤ t → t ≤ 1 → M.Sqrt s ≤ M.Sqrt t)
    (hmax : 0 ≤ maxBubbles) (hsorted : sortedDescending processes sortMode)
    (hw : 16 ≤ width) (hh : 12 ≤ height) :
    ∃ out, packBubbles M processes sortMode maxBubbles width height = some out ∧
      (out.Pairwise fun a b => b.Radius ≤ a.Radius) ∧
      ∀ b rest, out = b :: rest → ∀ c ∈ rest, c.Radius ≤ b.Radius := by
  obtain ⟨out, hout, hpre, -, -⟩ :=
    packBubbles_spec M processes sortMode maxBubbles width height hmax
  have htop : sortedDescending (processes.take maxBubbles.toNat) sortMode :=
    List.Pairwise.sublist (List.take_sublist _ _) hsorted
  have hsized : ((sizedBubbles M (processes.take maxBubbles.toNat) sortMode width height).map
      Bubble.sized).Pairwise fun a b => b.1 ≤ a.1 := by
    rw [sizedBubbles_eq_map, List.map_map, List.pairwise_map]
    refine List.Pairwise.imp_of_mem ?_ htop
    intro p q hp hq hqp
    obtain ⟨hp1, hp2⟩ := minMax_bounds _ sortMode p hp
    obtain ⟨hq1, hq2⟩ := minMax_bounds _ sortMode q hq
    exact calculateBubbleSize_mono M _ _ _ _ width height hmono hw hh hq1 hqp hp2
  have hpw : out.Pairwise fun a b => b.Radius ≤ a.Radius := by
    have h := List.Pairwise.sublist hpre.sublist hsized
    rw [List.pairwise_map] at h
    exact h
  refine ⟨out, hout, hpw, ?_⟩
  intro b rest hb c hc
  rw [hb, List.pairwise_cons] at hpw
  exact hpw.1 c hc

end RadiusOrder

/-- The radii of the three scenario processes, sorted descending by CPU, on a
40 by 20 canvas with the real square root are non-increasing in rank. -/
theorem radii_nonincreasing_at_scenario :
    (∀ s t : ℝ, 0 ≤ s → s ≤ t → t ≤ 1 → Real.sqrt s ≤ Real.sqrt t) ∧ (0 : Int) ≤ 3 ∧
    sortedDescending (scenarioProcs : List (ProcessInfo ℝ)) "cpu" ∧
    (16 : Int) ≤ 40 ∧ (12 : Int) ≤ 20 ∧
    ∃ out, packBubbles (⟨Real.sqrt, Real.cos, Real.sin⟩ : MathFns ℝ)
        scenarioProcs "cpu" 3 40 20 = some out ∧
      (out.Pairwise fun a b => b.Radius ≤ a.Radius) ∧
      ∀ b rest, out = b :: rest → ∀ c ∈ rest, c.Radius ≤ b.Radius :=
  have hs : sortedDescending (scenarioProcs : List (ProcessInfo ℝ)) "cpu" := by
    simp [sortedDescending, scenarioProcs, getValue]
    norm_num
  ⟨fun _ _ _ hst _ => Real.sqrt_le_sqrt hst, by decide, hs, by decide, by decide,
    radii_nonincreasing_on_large_canvas (⟨Real.sqrt, Real.cos, Real.sin⟩ : MathFns ℝ) _ _ _ _ _
      (fun _ _ _ hst _ => Real.sqrt_le_sqrt hst) (by decide) hs (by decide) (by decide)⟩

theorem small_canvas_sized :
    sizedBubbles (⟨Real.sqrt, Real.cos, Real.sin⟩ : MathFns ℝ)
        [sampleProc 1, sampleProc 0] "cpu" 40 10 =
      [{ X := 0, Y := 0, Radius := 5 / 3, Process := sampleProc 1, Value := 1,
         ColorHex := "9" },
       { X := 0, Y := 0, Radius := 2, Process := sampleProc 0, Value := 0,
         ColorHex := "10" }] := by
  have hmm : minMax ([sampleProc 1, sampleProc 0] : List (ProcessInfo ℝ)) "cpu" = (1, 0) := by
    simp only [minMax, List.foldl_cons, List.foldl_nil, minMaxStep, getValue, MaxFloat64,
      sampleProc]
    norm_num
  have hv1 : getValue (sampleProc 1 : ProcessInfo ℝ) "cpu" = 1 := by
    simp [getValue, sampleProc]
  have hv0 : getValue (sampleProc 0 : ProcessInfo ℝ) "cpu" = 0 := by
    simp [getValue, sampleProc]
  have hmin : min (((40 : Int) : ℝ) / 8) (((10 : Int) : ℝ) / 6) = 5 / 3 := by
    rw [min_eq_right] <;> norm_num
  rw [sizedBubbles_eq_map, hmm]
  simp only [List.map_cons, List.map_nil, hv1, hv0, calculateBubbleSize, getColor, hmin]
  norm_num

theorem small_canvas_second (b0 : Bubble ℝ) (hx : b0.X = 20) (hy : b0.Y = 5)
    (hr : b0.Radius = 5 / 3) :
    trySpiral (⟨Real.sqrt, Real.cos, Real.sin⟩ : MathFns ℝ) [b0] 20 5 2 40 10 (2 + 5 / 3) =
      some (77 / 3, 5) := by
  have hnone : tryAngles (⟨Real.sqrt, Real.cos, Real.sin⟩ : MathFns ℝ) [b0] 20 5 2
      40 10 (2 + 5 / 3) 0 = none := by
    apply tryAngles_none_of_all_collide
    intro a
    have := collides_centre_real b0 [] 2 (2 + 5 / 3) a (by
      rw [hr, abs_of_pos] <;> norm_num)
    rw [hx, hy] at this
    exact this
  rw [trySpiral_next _ _ _ _ _ _ _ _ (by norm_num) hnone]
  apply trySpiral_found _ _ _ _ _ _ _ _ _ (by norm_num)
  have hacc := tryAngles_accept (⟨Real.sqrt, Real.cos, Real.sin⟩ : MathFns ℝ) [b0] 20 5
    2 40 10 (2 + 5 / 3 + 2) 0 (by linarith [two_Pi_gt_six (K := ℝ)])
    (by
      rw [collides_eq_false_iff]
      intro bj hbj
      rw [List.mem_singleton] at hbj
      subst hbj
      simp only [Real.cos_zero, Real.sin_zero, hx, hy, hr]
      apply Real.le_sqrt_of_sq_le
      norm_num)
    (by
      rw [outOfBounds_eq_false_iff]
      simp only [Real.cos_zero, Real.sin_zero]
      norm_num)
  rw [hacc]
  simp only [Real.cos_zero, Real.sin_zero]
  norm_num

/-- C18 (failing input): the bubble at the canvas centre is not the largest.  On
a 40 by 10 canvas `maxRadius = min(40/8, 10/6) = 5/3` is below `minRadius = 2`
and is not clamped, so of two processes with CPU values 1 and 0, sorted
descending, the first gets radius 5/3 at the centre (20, 5) and the second the
larger radius 2. -/
theorem C18_centre_bubble_not_largest :
    sortedDescending ([sampleProc 1, sampleProc 0] : List (ProcessInfo ℝ)) "cpu" ∧
    packBubbles (⟨Real.sqrt, Real.cos, Real.sin⟩ : MathFns ℝ)
        [sampleProc 1, sampleProc 0] "cpu" 2 40 10 =
      some
        [{ X := 20, Y := 5, Radius := 5 / 3, Process := sampleProc 1, Value := 1,
           ColorHex := "9" },
         { X := 77 / 3, Y := 5, Radius := 2, Process := sampleProc 0, Value := 0,
           ColorHex := "10" }] ∧
    ¬ ((2 : ℝ) ≤ 5 / 3) := by
  have hcx : ((40 : Int) : ℝ) / 2 = 20 := by norm_num
  have hcy : ((10 : Int) : ℝ) / 2 = 5 := by norm_num
  have hcount : (if (2 : Int) >
      (([sampleProc 1, sampleProc 0] : List (ProcessInfo ℝ)).length : Int) then
      (([sampleProc 1, sampleProc 0] : List (ProcessInfo ℝ)).length : Int) else 2) = 2 := by
    simp
  have hs1 := small_canvas_second
    { X := 20, Y := 5, Radius := 5 / 3, Process := sampleProc 1, Value := 1, ColorHex := "9" }
    rfl rfl rfl
  refine ⟨?_, ?_, by norm_num⟩
  · simp [sortedDescending, getValue, sampleProc]
  · simp only [packBubbles, hcount, hcx, hcy]
    have htake : List.take (2 : Int).toNat
        ([sampleProc 1, sampleProc 0] : List (ProcessInfo ℝ)) =
        [sampleProc 1, sampleProc 0] := by
      simp
    rw [htake, small_canvas_sized]
    simp [placeRemaining, hs1]

section RasterShape

variable {K : Type} [LinearOrderedField K] [FloorRing K]

theorem foldl_append_string (l : List String) (acc : String) :
    l.foldl (fun r s => r ++ s) acc = acc ++ l.foldl (fun r s => r ++ s) "" := by
  induction l generalizing acc with
  | nil => simp
  | cons a rest ih =>
    rw [List.foldl_cons, List.foldl_cons, ih (acc ++ a), ih ("" ++ a), String.empty_append,
      String.append_assoc]

theorem join_cons_string (a : String) (l : List String) :
    String.join (a :: l) = a ++ String.join l := by
  unfold String.join
  rw [List.foldl_cons, foldl_append_string, String.empty_append]

theorem join_rows_eq_joinLines (t : Nat → String) (n k : Nat) :
    String.join ((List.range' k n).map fun y =>
        t y ++ if (y : Int) < ((k + n : Nat) : Int) - 1 then "\n" else "") =
      joinLines ((List.range' k n).map t) := by
  induction n generalizing k with
  | zero => rfl
  | succ n ih =>
    rw [List.range'_succ, List.map_cons, List.map_cons, join_cons_string]
    have hk : k + (n + 1) = (k + 1) + n := by omega
    rw [hk, ih (k + 1)]
    cases n with
    | zero =>
      have : ¬ ((k : Int) < ((k + 1 + 0 : Nat) : Int) - 1) := by
        push_cast
        omega
      simp [this, joinLines]
    | succ n =>
      have : (k : Int) < ((k + 1 + (n + 1) : Nat) : Int) - 1 := by
        push_cast
        omega
      rw [if_pos this, List.range'_succ, List.map_cons, joinLines]

theorem join_rows_range (t : Nat → String) (n : Nat) :
    String.join ((List.range n).map fun y =>
        t y ++ if (y : Int) < ((0 + n : Nat) : Int) - 1 then "\n" else "") =
      joinLines ((List.range n).map t) := by
  rw [List.range_eq_range']
  exact join_rows_eq_joinLines t n 0

theorem mapM_eq_some_map {α β : Type} (f : α → Option β) (g : α → β) (l : List α)
    (hf : ∀ a ∈ l, f a = some (g a)) : l.mapM f = some (l.map g) := by
  induction l with
  | nil => rfl
  | cons a rest ih =>
    rw [List.mapM_cons, hf a (List.mem_cons_self _ _),
      ih fun c hc => hf c (List.mem_cons_of_mem _ hc)]
    rfl

theorem renderCell_eq (U : UiFns K) (canvas : List (List Char)) (colors : List (List String))
    (h w : Nat) (hcv : rect canvas h w) (hcl : rect colors h w) (y x : Nat) (hy : y < h)
    (hx : x < w) :
    renderCell U canvas colors y x =
      some (cellText U ((getCell canvas y x).getD ' ') ((getCell colors y x).getD "")) := by
  obtain ⟨c, hc⟩ := getCell_rect canvas h w hcv y x hy hx
  obtain ⟨d, hd⟩ := getCell_rect colors h w hcl y x hy hx
  simp only [renderCell, hc, hd, cellText, Option.getD_some]
  split_ifs <;> rfl

theorem renderBubbles_eq (M : MathFns K) (U : UiFns K) (bubbles : List (Bubble K))
    (sortMode : String) (h w : Nat) (cv : List (List Char)) (cl : List (List String))
    (hdraw : bubbles.foldlM (fun st b => drawBubble M U st.1 st.2 b sortMode)
      (List.replicate h (List.replicate w ' '), List.replicate h (List.replicate w "")) =
        some (cv, cl))
    (hcv : rect cv h w) (hcl : rect cl h w) :
    renderBubbles M U bubbles (w : Int) (h : Int) sortMode =
      some (joinLines ((List.range h).map fun y =>
        String.join ((List.range w).map fun x =>
          cellText U ((getCell cv y x).getD ' ') ((getCell cl y x).getD "")))) := by
  have hrow : ∀ y ∈ List.range h, renderRow U cv cl (w : Int) (h : Int) y =
      some (String.join ((List.range w).map fun x =>
          cellText U ((getCell cv y x).getD ' ') ((getCell cl y x).getD "")) ++
        if (y : Int) < ((0 + h : Nat) : Int) - 1 then "\n" else "") := by
    intro y hy
    rw [List.mem_range] at hy
    have hcells := mapM_eq_some_map (renderCell U cv cl y)
      (fun x => cellText U ((getCell cv y x).getD ' ') ((getCell cl y x).getD ""))
      (List.range w) (by
        intro x hx
        rw [List.mem_range] at hx
        exact renderCell_eq U cv cl h w hcv hcl y x hy hx)
    simp only [renderRow, Int.toNat_ofNat, hcells, Nat.zero_add]
  have hrows := mapM_eq_some_map (renderRow U cv cl (w : Int) (h : Int)) _ (List.range h) hrow
  unfold renderBubbles
  rw [if_neg (by omega), if_neg (by omega)]
  simp only [Int.toNat_ofNat, hdraw, hrows]
  rw [join_rows_range]


/-- C11 (as amended): for `width ≥ 0` and `height ≥ 0`, with a non-empty bubble
list only when `height ≥ 1`, the output of `renderBubbles` is exactly `height`
rows separated by newlines with no trailing newline, and each row is the
concatenation of exactly `width` cell texts, one glyph per cell, wrapped in the
colour styling when the cell has a colour. -/
theorem C11_grid_shape (M : MathFns K) (U : UiFns K) (bubbles : List (Bubble K))
    (width height : Int) (sortMode : String) (hh : 0 ≤ height) (hw : 0 ≤ width)
    (hne : height = 0 → bubbles = []) :
    ∃ cells : List (List (Char × String)),
      (cells.length : Int) = height ∧ (∀ row ∈ cells, (row.length : Int) = width) ∧
      renderBubbles M U bubbles width height sortMode =
        some (joinLines (cells.map fun row =>
          String.join (row.map fun c => cellText U c.1 c.2))) := by
  obtain ⟨h, rfl⟩ := Int.eq_ofNat_of_zero_le hh
  obtain ⟨w, rfl⟩ := Int.eq_ofNat_of_zero_le hw
  have hcv : rect (List.replicate h (List.replicate w ' ')) h w :=
    ⟨by simp, fun row hr => by rw [List.eq_of_mem_replicate hr]; simp⟩
  have hcl : rect (List.replicate h (List.replicate w "")) h w :=
    ⟨by simp, fun row hr => by rw [List.eq_of_mem_replicate hr]; simp⟩
  have hdraw : ∃ cv cl, bubbles.foldlM (fun st b => drawBubble M U st.1 st.2 b sortMode)
      (List.replicate h (List.replicate w ' '), List.replicate h (List.replicate w "")) =
        some (cv, cl) ∧ rect cv h w ∧ rect cl h w := by
    by_cases h0 : h = 0
    · rw [hne (by exact_mod_cast h0)]
      exact ⟨_, _, rfl, hcv, hcl⟩
    · exact drawAll_rect M U sortMode h w (by omega) bubbles _ _ hcv hcl
  obtain ⟨cv, cl, hd, hr1, hr2⟩ := hdraw
  refine ⟨(List.range h).map fun y => (List.range w).map fun x =>
    ((getCell cv y x).getD ' ', (getCell cl y x).getD ""), by simp, ?_, ?_⟩
  · intro row hrow
    obtain ⟨y, -, rfl⟩ := List.mem_map.mp hrow
    simp
  · rw [renderBubbles_eq M U bubbles sortMode h w cv cl hd hr1 hr2]
    simp only [List.map_map, Function.comp_def]

theorem join_replicate_singleton (c : Char) (n : Nat) :
    String.join (List.replicate n (String.singleton c)) = String.mk (List.replicate n c) := by
  induction n with
  | zero => rfl
  | succ n ih =>
    rw [List.replicate_succ, join_cons_string, ih]
    rfl

/-- C12 (as amended): `packBubbles` on an empty process list returns an empty
list of bubbles for every sort mode, `maxBubbles`, width and height, and for
`width ≥ 0` and `height ≥ 0` `renderBubbles` on an empty bubble list returns
`height` rows of `width` spaces separated by newlines, without colour styling. -/
theorem C12_empty_batch (M : MathFns K) (U : UiFns K) (sortMode : String)
    (maxBubbles width height : Int) (hh : 0 ≤ height) (hw : 0 ≤ width) :
    packBubbles M [] sortMode maxBubbles width height = some [] ∧
      renderBubbles M U [] width height sortMode =
        some (joinLines (List.replicate height.toNat
          (String.mk (List.replicate width.toNat ' ')))) := by
  refine ⟨by simp [packBubbles], ?_⟩
  obtain ⟨h, rfl⟩ := Int.eq_ofNat_of_zero_le hh
  obtain ⟨w, rfl⟩ := Int.eq_ofNat_of_zero_le hw
  have hcv : rect (List.replicate h (List.replicate w ' ')) h w :=
    ⟨by simp, fun row hr => by rw [List.eq_of_mem_replicate hr]; simp⟩
  have hcl : rect (List.replicate h (List.replicate w "")) h w :=
    ⟨by simp, fun row hr => by rw [List.eq_of_mem_replicate hr]; simp⟩
  rw [renderBubbles_eq M U [] sortMode h w _ _ rfl hcv hcl]
  have hcell : ∀ y ∈ List.range h, ∀ x ∈ List.range w,
      cellText U ((getCell (List.replicate h (List.replicate w ' ')) y x).getD ' ')
        ((getCell (List.replicate h (List.replicate w "")) y x).getD "") =
        String.singleton ' ' := by
    intro y hy x hx
    rw [List.mem_range] at hy hx
    simp [getCell, hy, hx, cellText]
  have hrow : ∀ y ∈ List.range h,
      String.join ((List.range w).map fun x =>
        cellText U ((getCell (List.replicate h (List.replicate w ' ')) y x).getD ' ')
          ((getCell (List.replicate h (List.replicate w "")) y x).getD "")) =
        String.mk (List.replicate w ' ') := by
    intro y hy
    rw [List.map_congr_left (hcell y hy), ← join_replicate_singleton]
    congr 1
    simp [List.map_const']
  rw [List.map_congr_left hrow]
  simp [List.map_const']

end RasterShape

/-- C11 (witness): `C11_grid_shape` for the plain terminal library and the first
bubble of the scenario on a 40 by 20 canvas. -/
theorem C11_grid_shape_witness :
    (0 : Int) ≤ 20 ∧ (0 : Int) ≤ 40 ∧
    ((20 : Int) = 0 → ([sampleBubble] : List (Bubble ℝ)) = []) ∧
    ∃ cells : List (List (Char × String)),
      (cells.length : Int) = 20 ∧ (∀ row ∈ cells, (row.length : Int) = 40) ∧
      renderBubbles (⟨Real.sqrt, Real.cos, Real.sin⟩ : MathFns ℝ) plainUi
          [sampleBubble] 40 20 "cpu" =
        some (joinLines (cells.map fun row =>
          String.join (row.map fun c => cellText (plainUi : UiFns ℝ) c.1 c.2))) :=
  ⟨by decide, by decide, fun h => absurd h (by decide),
    C11_grid_shape _ _ _ 40 20 _ (by decide) (by decide) (fun h => absurd h (by decide))⟩

/-- C11 (counterexample): for the width -1 and the height 2 the allocation of
the first canvas row fails, so `renderBubbles` returns no rows at all. -/
theorem C11_counterexample :
    renderBubbles (⟨Real.sqrt, Real.cos, Real.sin⟩ : MathFns ℝ) plainUi [] (-1) 2 "cpu" =
      none := by
  unfold renderBubbles
  rw [if_neg (by decide), if_pos (by decide)]

/-- C12 (witness): `C12_empty_batch` for the plain terminal library on a 40 by
20 canvas. -/
theorem C12_empty_batch_witness :
    (0 : Int) ≤ 20 ∧ (0 : Int) ≤ 40 ∧
    packBubbles (⟨Real.sqrt, Real.cos, Real.sin⟩ : MathFns ℝ) [] "cpu" 20 40 20 = some [] ∧
    renderBubbles (⟨Real.sqrt, Real.cos, Real.sin⟩ : MathFns ℝ) plainUi [] 40 20 "cpu" =
      some (joinLines (List.replicate (20 : Int).toNat
        (String.mk (List.replicate (40 : Int).toNat ' ')))) :=
  ⟨by decide, by decide, C12_empty_batch _ _ _ _ _ _ (by decide) (by decide)⟩

/-- C12 (counterexample): with the width 0 and the height -3 that `View` passes
for `NewModel()`, `packBubbles` on the empty batch returns the empty list but
`renderBubbles` on it fails in `make`: no blank grid is returned. -/
theorem C12_counterexample :
    packBubbles (⟨Real.sqrt, Real.cos, Real.sin⟩ : MathFns ℝ) [] "cpu" 20 0 (-3) = some [] ∧
    renderBubbles (⟨Real.sqrt, Real.cos, Real.sin⟩ : MathFns ℝ) plainUi [] 0 (-3) "cpu" =
      none := by
  refine ⟨by simp [packBubbles], ?_⟩
  unfold renderBubbles
  rw [if_pos (by decide)]

section LabelCells

variable {K : Type} [LinearOrderedField K] [FloorRing K]

theorem getCell_setCell {α : Type} (g g1 : List (List α)) (y x : Int) (v : α)
    (hset : setCell g y x v = some g1) (y1 x1 : Nat) :
    getCell g1 y1 x1 = if y1 = y.toNat ∧ x1 = x.toNat then some v else getCell g y1 x1 := by
  unfold setCell at hset
  split_ifs at hset with hy
  cases hrow : g[y.toNat]? with
  | none => simp [hrow] at hset
  | some row =>
    simp only [hrow] at hset
    split_ifs at hset with hx
    cases hset
    have hyn : y.toNat < g.length := by omega
    have hxn : x.toNat < row.length := by omega
    unfold getCell
    by_cases h1 : y1 = y.toNat
    · subst h1
      rw [List.getElem?_set_self hyn]
      simp only [hrow, true_and]
      by_cases h2 : x1 = x.toNat
      · subst h2
        simp [List.getElem?_set_self hxn]
      · rw [if_neg h2, List.getElem?_set_ne (Ne.symm h2)]
    · rw [List.getElem?_set_ne (Ne.symm h1)]
      simp [h1]


theorem drawOutline_cells (M : MathFns K) (b : Bubble K) (h w : Nat) (angle : K)
    (canvas : List (List Char)) (colors : List (List String))
    (cv1 : List (List Char)) (cl1 : List (List String))
    (hdraw : drawOutline M b (h : Int) (w : Int) angle canvas colors = some (cv1, cl1))
    (y1 x1 : Nat) :
    getCell cv1 y1 x1 = getCell canvas y1 x1 ∨ getCell cv1 y1 x1 = some circleGlyph := by
  induction angle, canvas, colors using drawOutline.induct M b (h : Int) (w : Int) with
  | case1 a cv cl hlt x y hin cv2 cl2 hs2 hs1 ih =>
    rw [drawOutline, dif_pos hlt] at hdraw
    simp only [x, y] at hin hs1 hs2
    simp only [if_pos hin, hs1, hs2] at hdraw
    rcases ih hdraw with h1 | h1
    · rw [h1, getCell_setCell cv cv2 _ _ circleGlyph hs1 y1 x1]
      split_ifs
      · exact Or.inr rfl
      · exact Or.inl rfl
    · exact Or.inr h1
  | case2 a cv cl hlt x y hin hnone =>
    rw [drawOutline, dif_pos hlt] at hdraw
    simp only [x, y] at hin hnone
    cases hs1 : setCell cv (truncToInt (b.Y + b.Radius * M.Sin a))
        (truncToInt (b.X + b.Radius * M.Cos a)) circleGlyph with
    | none =>
      simp only [if_pos hin, hs1] at hdraw
      cases hdraw
    | some cv2 =>
      cases hs2 : setCell cl (truncToInt (b.Y + b.Radius * M.Sin a))
          (truncToInt (b.X + b.Radius * M.Cos a)) b.ColorHex with
      | none =>
        simp only [if_pos hin, hs1, hs2] at hdraw
        cases hdraw
      | some cl2 => exact absurd hs2 (fun e2 => hnone cv2 cl2 hs1 e2)
  | case3 a cv cl hlt x y hin ih =>
    rw [drawOutline, dif_pos hlt] at hdraw
    simp only [x, y] at hin
    simp only [if_neg hin] at hdraw
    exact ih hdraw
  | case4 a cv cl hlt =>
    rw [drawOutline, dif_neg hlt] at hdraw
    cases hdraw
    exact Or.inl rfl

/-- The label loop of `drawBubble`: in the label row every cell holds the rune of
the last pair `(i, ch)` of the loop whose column `labelX + i` is that cell, and
the cell is unchanged when there is none; the other rows are unchanged. -/
theorem drawLabel_cells (b : Bubble K) (labelX labelY : Int) (h w : Nat)
    (hy0 : 0 ≤ labelY) (hy : labelY < (h : Int)) (cells : List (Nat × Char))
    (canvas : List (List Char)) (colors : List (List String))
    (hcv : rect canvas h w) (hcl : rect colors h w) :
    ∃ cv cl, cells.foldlM (drawLabelCell b labelX labelY (w : Int)) (canvas, colors) =
        some (cv, cl) ∧ rect cv h w ∧ rect cl h w ∧
      ∀ y1 x1 : Nat, x1 < w → getCell cv y1 x1 =
        if y1 = labelY.toNat then
          match cells.reverse.find? (fun ic => decide (labelX + (ic.1 : Int) = (x1 : Int))) with
          | some ic => some ic.2
          | none => getCell canvas y1 x1
        else getCell canvas y1 x1 := by
  induction cells generalizing canvas colors with
  | nil =>
    refine ⟨canvas, colors, rfl, hcv, hcl, ?_⟩
    intro y1 x1 _
    simp
  | cons ic rest ih =>
    by_cases hin : labelX + (ic.1 : Int) ≥ 0 ∧ labelX + (ic.1 : Int) < (w : Int)
    · obtain ⟨cv2, hcv2, hr2⟩ := setCell_rect canvas h w hcv labelY (labelX + (ic.1 : Int))
        ic.2 hy0 hy hin.1 hin.2
      obtain ⟨cl2, hcl2, hr3⟩ := setCell_rect colors h w hcl labelY (labelX + (ic.1 : Int))
        b.ColorHex hy0 hy hin.1 hin.2
      obtain ⟨cv3, cl3, h3, hr4, hr5, hget⟩ := ih cv2 cl2 hr2 hr3
      refine ⟨cv3, cl3, ?_, hr4, hr5, ?_⟩
      · rw [List.foldlM_cons]
        have hstep : drawLabelCell b labelX labelY (w : Int) (canvas, colors) ic =
            some (cv2, cl2) := by
          simp only [drawLabelCell, if_pos hin, hcv2, hcl2]
        rw [hstep]
        exact h3
      · intro y1 x1 hx1
        rw [hget y1 x1 hx1, getCell_setCell canvas cv2 _ _ ic.2 hcv2 y1 x1,
          List.reverse_cons, List.find?_append]
        by_cases hy1 : y1 = labelY.toNat
        · rw [if_pos hy1, if_pos hy1]
          cases hf : rest.reverse.find?
              (fun ic => decide (labelX + (ic.1 : Int) = (x1 : Int))) with
          | some jc => rfl
          | none =>
            rw [Option.none_or]
            by_cases hcol : labelX + (ic.1 : Int) = (x1 : Int)
            · have hx : x1 = (labelX + (ic.1 : Int)).toNat := by omega
              have hfind : [ic].find? (fun ic => decide (labelX + (ic.1 : Int) = (x1 : Int))) =
                  some ic := by
                rw [List.find?_cons, decide_eq_true hcol]
              rw [hfind]
              simp only
              rw [if_pos ⟨hy1, hx⟩]
            · have hx : ¬ x1 = (labelX + (ic.1 : Int)).toNat := by omega
              have hfind : [ic].find? (fun ic => decide (labelX + (ic.1 : Int) = (x1 : Int))) =
                  none := by
                rw [List.find?_cons, decide_eq_false hcol, List.find?_nil]
              rw [hfind]
              simp only
              rw [if_neg (fun hh => hx hh.2)]
        · rw [if_neg hy1, if_neg hy1, if_neg (fun hh => hy1 hh.1)]
    · obtain ⟨cv3, cl3, h3, hr4, hr5, hget⟩ := ih canvas colors hcv hcl
      refine ⟨cv3, cl3, ?_, hr4, hr5, ?_⟩
      · rw [List.foldlM_cons]
        have hstep : drawLabelCell b labelX labelY (w : Int) (canvas, colors) ic =
            some (canvas, colors) := by
          simp only [drawLabelCell, if_neg hin]
        rw [hstep]
        exact h3
      · intro y1 x1 hx1
        rw [hget y1 x1 hx1, List.reverse_cons, List.find?_append]
        by_cases hy1 : y1 = labelY.toNat
        · rw [if_pos hy1, if_pos hy1]
          cases hf : rest.reverse.find?
              (fun ic => decide (labelX + (ic.1 : Int) = (x1 : Int))) with
          | some jc => rfl
          | none =>
            have hcol : ¬ labelX + (ic.1 : Int) = (x1 : Int) := by
              intro hcol
              apply hin
              omega
            have hfind : [ic].find? (fun ic => decide (labelX + (ic.1 : Int) = (x1 : Int))) =
                none := by
              rw [List.find?_cons, decide_eq_false hcol, List.find?_nil]
            rw [Option.none_or, hfind]
        · rw [if_neg hy1, if_neg hy1]


/-- What `drawBubble` leaves in the cells of a canvas with at least one row, when
the label row `int(b.Y)` is in bounds: in the label row a cell holds the rune of
the loop pair `(i, ch)` with `int(b.X) - len(label)/2 + i` equal to its column,
`i` being the byte offset of the rune in the label; every other cell is as the
outline loop left it. -/
theorem drawBubble_label (M : MathFns K) (U : UiFns K) (b : Bubble K) (sortMode : String)
    (h w : Nat) (hh : 1 ≤ h) (canvas : List (List Char)) (colors : List (List String))
    (hcv : rect canvas h w) (hcl : rect colors h w) (name : List UInt8)
    (hname : truncate b.Process.Name 12 = some name)
    (hy0 : 0 ≤ truncToInt b.Y) (hy : truncToInt b.Y < (h : Int)) :
    ∃ cv1 cl1 cv cl, drawOutline M b (h : Int) (w : Int) 0 canvas colors = some (cv1, cl1) ∧
      drawBubble M U canvas colors b sortMode = some (cv, cl) ∧
      ∀ y1 x1 : Nat, x1 < w → getCell cv y1 x1 =
        if y1 = (truncToInt b.Y).toNat then
          match (rangeString 0 (name ++ goBytes " " ++
              goBytes (metricSuffix U b sortMode))).reverse.find? (fun ic =>
              decide (truncToInt b.X -
                (((name ++ goBytes " " ++ goBytes (metricSuffix U b sortMode)).length / 2 :
                  Nat) : Int) + (ic.1 : Int) = (x1 : Int))) with
          | some ic => some ic.2
          | none => getCell cv1 y1 x1
        else getCell cv1 y1 x1 := by
  cases canvas with
  | nil =>
    have := hcv.1
    simp at this
    omega
  | cons row0 rows =>
    have hw : (row0.length : Int) = (w : Int) := by
      rw [hcv.2 row0 (List.mem_cons_self _ _)]
    have hlen : (((row0 :: rows).length : Nat) : Int) = (h : Int) := by
      rw [hcv.1]
    obtain ⟨cv1, cl1, ho, hr1, hr2⟩ := drawOutline_rect M b h w 0 (row0 :: rows) colors hcv hcl
    obtain ⟨cv, cl, hfold, -, -, hget⟩ := drawLabel_cells b
      (truncToInt b.X -
        (((name ++ goBytes " " ++ goBytes (metricSuffix U b sortMode)).length / 2 : Nat) : Int))
      (truncToInt b.Y) h w hy0 hy
      (rangeString 0 (name ++ goBytes " " ++ goBytes (metricSuffix U b sortMode)))
      cv1 cl1 hr1 hr2
    refine ⟨cv1, cl1, cv, cl, ho, ?_, hget⟩
    simp only [drawBubble, hw, hlen, ho, hname]
    rw [if_pos ⟨hy0, hy⟩]
    exact hfold

end LabelCells

section AccentLabel

variable {K : Type} [LinearOrderedField K] [FloorRing K]

theorem truncToInt_ofNat (n : Nat) : truncToInt ((n : K)) = (n : Int) := by
  unfold truncToInt
  rw [if_pos (Nat.cast_nonneg n), Int.floor_natCast]

theorem accent_label_bytes :
    goBytes "éa" ++ goBytes " " ++ goBytes (toString (5 : Int)) =
      [0xC3, 0xA9, 0x61, 0x20, 0x35] := by
  decide

theorem accent_label_runes :
    rangeString 0 ([0xC3, 0xA9, 0x61, 0x20, 0x35] : List UInt8) =
      [(0, 'é'), (2, 'a'), (3, ' '), (4, '5')] := by
  have h0 : decodeRune 0xC3 [0xA9, 0x61, 0x20, 0x35] = ('é', 1) := by decide
  have h1 : decodeRune 0x61 [0x20, 0x35] = ('a', 0) := by decide
  have h2 : decodeRune 0x20 [0x35] = (' ', 0) := by decide
  have h3 : decodeRune 0x35 [] = ('5', 0) := by decide
  rw [rangeString, h0]
  simp only [List.drop_succ_cons, List.drop_zero]
  rw [rangeString, h1]
  simp only [List.drop_zero]
  rw [rangeString, h2]
  simp only [List.drop_zero]
  rw [rangeString, h3]
  simp only [List.drop_zero]
  rw [rangeString]

theorem accent_truncate : truncate (goBytes "éa") 12 = some (goBytes "éa") := by
  decide


/-- C19 (failing input): the bubble `éa` with value 5 at `(20, 5)`, sort mode
`threads`, drawn on a blank 40 by 11 canvas.  The label `éa 5` has 5 bytes, so
it starts at column `20 - 5/2 = 18`; its characters `é`, `a`, space, `5` land in
the columns 18, 20, 21, 22 (their byte offsets 0, 2, 3, 4), and column 19, where
the second character `a` should be, holds no label character. -/
theorem C19_label_uses_byte_offsets (M : MathFns K) (U : UiFns K) :
    ∃ cv cl, drawBubble M U (List.replicate 11 (List.replicate 40 ' '))
        (List.replicate 11 (List.replicate 40 "")) accentBubble "threads" = some (cv, cl) ∧
      getCell cv 5 18 = some 'é' ∧ getCell cv 5 20 = some 'a' ∧ getCell cv 5 21 = some ' ' ∧
      getCell cv 5 22 = some '5' ∧ getCell cv 5 19 ≠ some 'a' := by
  have hcv : rect (List.replicate 11 (List.replicate 40 ' ')) 11 40 :=
    ⟨by simp, fun row hr => by rw [List.eq_of_mem_replicate hr]; simp⟩
  have hcl : rect (List.replicate 11 (List.replicate 40 "")) 11 40 :=
    ⟨by simp, fun row hr => by rw [List.eq_of_mem_replicate hr]; simp⟩
  have hY : truncToInt (accentBubble : Bubble K).Y = 5 := by
    have := truncToInt_ofNat (K := K) 5
    simpa [accentBubble] using this
  have hX : truncToInt (accentBubble : Bubble K).X = 20 := by
    have := truncToInt_ofNat (K := K) 20
    simpa [accentBubble] using this
  have hV : truncToInt (accentBubble : Bubble K).Value = 5 := by
    have := truncToInt_ofNat (K := K) 5
    simpa [accentBubble] using this
  have hsuffix : metricSuffix U (accentBubble : Bubble K) "threads" = toString (5 : Int) := by
    simp only [metricSuffix, hV]
    rfl
  obtain ⟨cv1, cl1, cv, cl, hout, hdraw, hget⟩ := drawBubble_label M U accentBubble "threads"
    11 40 (by decide) _ _ hcv hcl (goBytes "éa") accent_truncate
    (by rw [hY]; decide) (by rw [hY]; decide)
  rw [hsuffix, accent_label_bytes, accent_label_runes, hX, hY] at hget
  refine ⟨cv, cl, hdraw, ?_, ?_, ?_, ?_, ?_⟩
  · rw [hget 5 18 (by decide)]
    rfl
  · rw [hget 5 20 (by decide)]
    rfl
  · rw [hget 5 21 (by decide)]
    rfl
  · rw [hget 5 22 (by decide)]
    rfl
  · rw [hget 5 19 (by decide)]
    have hcell : getCell cv1 5 19 = some ' ' ∨ getCell cv1 5 19 = some circleGlyph := by
      rcases drawOutline_cells M accentBubble 11 40 0 _ _ cv1 cl1 hout 5 19 with h | h
      · left
        rw [h]
        decide
      · exact Or.inr h
    have hfind : (([(0, 'é'), (2, 'a'), (3, ' '), (4, '5')] : List (Nat × Char)).reverse.find?
        (fun ic => decide ((20 : Int) -
          (((([0xC3, 0xA9, 0x61, 0x20, 0x35] : List UInt8).length / 2 : Nat)) : Int) +
            (ic.1 : Int) = ((19 : Nat) : Int)))) = none := by
      decide
    rw [hfind]
    rcases hcell with h | h <;> rw [if_pos (by decide)] <;> simp only [h] <;> decide

end AccentLabel

end Procmap
